import Mathlib

/-!
Verification of the button-input-driver core (src/src/buttonlib.c) against its
natural-language specification.  The C code is shallowly embedded: machine
integers become `Nat` with explicit wraparound where the C types can wrap
(`uint64_t` subtraction, `uint8_t` increment), the per-button state struct and
event queue become Lean structures, and the mutating functions become pure
state-passing functions.  The hardware read callback is modelled by supplying
the raw boolean reading as an argument to each update pass; the optional
per-button interception callback is kept as an optional Lean function.
-/

set_option maxRecDepth 100000

namespace ButtonLib

/-- The modulus of `uint64_t`. -/
def U64 : Nat := 18446744073709551616

/-- C unsigned 64-bit subtraction `a - b` (wraps modulo 2^64). -/
def u64sub (a b : Nat) : Nat := (a + U64 - b) % U64

/-- `MS_TO_US(x)`: `(uint64_t)(x) * 1000ULL`.  The argument is a `uint16_t`
config field, so the multiplication can never wrap in C. -/
def msToUs (x : Nat) : Nat := x * 1000

theorem u64sub_self (a : Nat) : u64sub a a = 0 := by
  unfold u64sub
  rw [Nat.add_sub_cancel_left, Nat.mod_self]

theorem u64sub_eq {a b : Nat} (h1 : b ≤ a) (h2 : a - b < 18446744073709551616) :
    u64sub a b = a - b := by
  unfold u64sub U64
  have h3 : a + 18446744073709551616 - b = 18446744073709551616 + (a - b) := by omega
  rw [h3, Nat.add_mod_left, Nat.mod_eq_of_lt h2]

/-- `btn_event_type_t`. -/
inductive BtnEventType where
  | down
  | up
  | click
  | longStart
  | longHold
deriving DecidableEq

/-- `btn_event_t`. -/
structure BtnEvent where
  btn_id : Nat
  type : BtnEventType
  clicks : Nat
  timestamp : Nat
deriving DecidableEq

instance : Inhabited BtnEvent := ⟨⟨0, BtnEventType.down, 0, 0⟩⟩

/-- `btn_config_t`.  `read_fn`/`hw_arg` are modelled by feeding the raw reading
into each update pass; `has_read_fn` records whether `read_fn` is non-NULL
(checked by `btn_setup` and defensively by `btn_update`).  All `_ms` fields are
`uint16_t` in C. -/
structure BtnConfig where
  id : Nat
  active_low : Bool
  has_read_fn : Bool
  callback : Option (BtnEvent → Bool)
  debounce_ms : Nat
  click_timeout_ms : Nat
  long_press_ms : Nat
  repeat_period_ms : Nat

/-- `btn_state_t`.  `click_count` and `hold_repeat_count` are `uint8_t`. -/
structure BtnState where
  logic_state : Bool
  raw_state : Bool
  suppressed : Bool
  last_debounce_time : Nat
  state_start_time : Nat
  last_release_time : Nat
  last_repeat_time : Nat
  click_count : Nat
  hold_repeat_count : Nat
deriving DecidableEq

/-- The all-zero state written by `btn_setup`'s `memset`. -/
def BtnState.init : BtnState :=
  ⟨false, false, false, 0, 0, 0, 0, 0, 0⟩

/-- `LONG_PRESS_ACTIVE` (0xFF), the "long press already announced" sentinel
stored in `click_count`. -/
def LONG_PRESS_ACTIVE : Nat := 255

/-- The `emit` helper, as the list (empty or singleton) of events it passes on
to `push_event`: suppressed buttons emit nothing, and a callback that returns
true consumes the event. -/
def emitList (cfg : BtnConfig) (st : BtnState) (ty : BtnEventType)
    (clicks ts : Nat) : List BtnEvent :=
  if st.suppressed then []
  else
    let evt : BtnEvent := ⟨cfg.id, ty, clicks, ts⟩
    match cfg.callback with
    | some cb => if cb evt then [] else [evt]
    | none => [evt]

/-- Step 2 of `btn_update`, first half: record a raw change and reset the
debounce anchor. -/
def debRecord (st : BtnState) (raw : Bool) (now : Nat) : BtnState :=
  if raw ≠ st.raw_state then
    { st with last_debounce_time := now, raw_state := raw }
  else st

/-- Step 2 of `btn_update`, second half: debounced edge detection, DOWN/UP
emission, and click accounting on release. -/
def edgePhase (cfg : BtnConfig) (st : BtnState) (raw : Bool) (now : Nat) :
    BtnState × List BtnEvent :=
  if u64sub now st.last_debounce_time > msToUs cfg.debounce_ms then
    if st.logic_state ≠ raw then
      if raw then
        let st1 : BtnState :=
          { st with logic_state := true, state_start_time := now,
                    last_repeat_time := now, hold_repeat_count := 0,
                    suppressed := false }
        (st1, emitList cfg st1 BtnEventType.down 0 now)
      else
        let st1 : BtnState := { st with logic_state := false }
        let evs := emitList cfg st1 BtnEventType.up 0 now
        if st1.suppressed = false then
          if u64sub now st1.state_start_time < msToUs cfg.long_press_ms then
            ({ st1 with click_count := (st1.click_count + 1) % 256,
                        last_release_time := now }, evs)
          else
            ({ st1 with click_count := 0 }, evs)
        else (st1, evs)
    else (st, [])
  else (st, [])

/-- Step 3 of `btn_update`, held branch: LONG_START once per hold, then
auto-repeat with saturating repeat counter. -/
def longPhase (cfg : BtnConfig) (st : BtnState) (now : Nat) :
    BtnState × List BtnEvent :=
  let p : BtnState × List BtnEvent :=
    if st.click_count ≠ LONG_PRESS_ACTIVE then
      let st1 : BtnState :=
        { st with click_count := LONG_PRESS_ACTIVE, hold_repeat_count := 0 }
      let evs := emitList cfg st1 BtnEventType.longStart 0 now
      ({ st1 with last_repeat_time := now }, evs)
    else (st, [])
  let st2 := p.1
  if cfg.repeat_period_ms > 0 then
    if u64sub now st2.last_repeat_time > msToUs cfg.repeat_period_ms then
      let st3 : BtnState :=
        if st2.hold_repeat_count < 255 then
          { st2 with hold_repeat_count := st2.hold_repeat_count + 1 }
        else st2
      ({ st3 with last_repeat_time := now },
       p.2 ++ emitList cfg st3 BtnEventType.longHold st3.hold_repeat_count now)
    else (st2, p.2)
  else (st2, p.2)

/-- Step 3 of `btn_update`, idle branch: click-timeout evaluation and
long-press marker cleanup. -/
def idlePhase (cfg : BtnConfig) (st : BtnState) (now : Nat) :
    BtnState × List BtnEvent :=
  let p : BtnState × List BtnEvent :=
    if 0 < st.click_count ∧ st.click_count ≠ LONG_PRESS_ACTIVE then
      if u64sub now st.last_release_time > msToUs cfg.click_timeout_ms then
        let evs :=
          if st.suppressed = false then
            emitList cfg st BtnEventType.click st.click_count
              st.last_release_time
          else []
        ({ st with click_count := 0, hold_repeat_count := 0 }, evs)
      else (st, [])
    else (st, [])
  if p.1.click_count = LONG_PRESS_ACTIVE then
    ({ p.1 with click_count := 0, hold_repeat_count := 0 }, p.2)
  else p

/-- Step 3 of `btn_update`: dispatch on the (possibly just-updated) stable
logical state. -/
def servicePhase (cfg : BtnConfig) (st : BtnState) (now : Nat) :
    BtnState × List BtnEvent :=
  if st.logic_state then
    if u64sub now st.state_start_time > msToUs cfg.long_press_ms then
      longPhase cfg st now
    else (st, [])
  else idlePhase cfg st now

/-- One pass of the `btn_update` loop body for a single button: polarity
correction, debounce, edge handling, then hold/idle servicing.  Returns the
new state and the events passed to `push_event`, in emission order. -/
def btnStep (cfg : BtnConfig) (st : BtnState) (rawIn : Bool) (now : Nat) :
    BtnState × List BtnEvent :=
  let raw := if cfg.active_low then !rawIn else rawIn
  let st1 := debRecord st raw now
  let p := edgePhase cfg st1 raw now
  let q := servicePhase cfg p.1 now
  (q.1, p.2 ++ q.2)

/-- Run a sequence of update passes for one button.  Each element of `polls`
is the timestamp passed to `btn_update` together with the raw reading the
button's `read_fn` returns on that pass. -/
def runTrace (cfg : BtnConfig) (st : BtnState) :
    List (Nat × Bool) → BtnState × List BtnEvent
  | [] => (st, [])
  | (t, r) :: ps =>
    let p := btnStep cfg st r t
    let q := runTrace cfg p.1 ps
    (q.1, p.2 ++ q.2)

/-- The queue-related part of `btn_context_t`.  The C buffer pointer becomes
`hasQueue` (NULL-ness) plus `buf`, the buffer contents as a total map from
index to stored event (only indices below `queue_size` are ever written or
read). -/
structure RingCtx where
  hasQueue : Bool
  buf : Nat → BtnEvent
  queue_size : Nat
  head : Nat
  tail : Nat
  dropped_events : Nat

/-- `push_event`: overwrite-oldest circular-buffer admission. -/
def push_event (ctx : RingCtx) (evt : BtnEvent) : RingCtx :=
  if ctx.hasQueue = false ∨ ctx.queue_size = 0 then ctx
  else
    let next := (ctx.head + 1) % ctx.queue_size
    let ctx1 :=
      if next = ctx.tail then
        { ctx with tail := (ctx.tail + 1) % ctx.queue_size,
                   dropped_events := ctx.dropped_events + 1 }
      else ctx
    { ctx1 with buf := fun i => if i = ctx1.head then evt else ctx1.buf i,
                head := next }

/-- `btn_pop_event`: the returned event (`none` = C returned false) together
with the updated context. -/
def btn_pop_event (ctx : RingCtx) : Option BtnEvent × RingCtx :=
  if ctx.hasQueue = false ∨ ctx.queue_size = 0 then (none, ctx)
  else if ctx.head = ctx.tail then (none, ctx)
  else (some (ctx.buf ctx.tail),
        { ctx with tail := (ctx.tail + 1) % ctx.queue_size })

/-- Pop repeatedly (at most `fuel` times), collecting the events in FIFO
order; stops at the first "empty" signal. -/
def drain (ctx : RingCtx) : Nat → List BtnEvent
  | 0 => []
  | fuel+1 =>
    match (btn_pop_event ctx).1 with
    | none => []
    | some e => e :: drain (btn_pop_event ctx).2 fuel

/-- Push a whole list of events in order. -/
def pushMany (ctx : RingCtx) (l : List BtnEvent) : RingCtx :=
  l.foldl push_event ctx

/-- A queue as `btn_init` leaves it: zeroed bookkeeping over caller storage
whose initial contents `buf0` are arbitrary. -/
def freshRing (qsize : Nat) (buf0 : Nat → BtnEvent) : RingCtx :=
  ⟨true, buf0, qsize, 0, 0, 0⟩

/-- `btn_instance_t`: one slot of the registry. -/
structure BtnSlot where
  config : Option BtnConfig
  state : Option BtnState

/-- `btn_context_t`: the slot array plus the event queue. -/
structure BtnContext where
  slots : List BtnSlot
  ring : RingCtx

/-- `btn_init`: zero the context and bind caller-owned storage (`queue = none`
models a NULL queue pointer). -/
def btn_init (slots : List BtnSlot) (queue : Option (Nat → BtnEvent))
    (qsize : Nat) : BtnContext :=
  { slots := slots,
    ring := { hasQueue := queue.isSome,
              buf := queue.getD (fun _ => default),
              queue_size := qsize, head := 0, tail := 0, dropped_events := 0 } }

/-- The `btn_update` loop body for one slot: disabled slots (missing config,
missing state, or NULL `read_fn`) are skipped. -/
def slotStep (slot : BtnSlot) (rawIn : Bool) (now : Nat) :
    BtnSlot × List BtnEvent :=
  match slot.config, slot.state with
  | some cfg, some st =>
    if cfg.has_read_fn then
      let p := btnStep cfg st rawIn now
      ({ slot with state := some p.1 }, p.2)
    else (slot, [])
  | _, _ => (slot, [])

/-- Iterate the slots in order, collecting each slot's emitted events in
iteration order.  `reads` supplies each slot's raw hardware reading for this
pass. -/
def updateSlots : List BtnSlot → List Bool → Nat →
    List BtnSlot × List BtnEvent
  | [], _, _ => ([], [])
  | s :: ss, reads, now =>
    let p := slotStep s (reads.headD false) now
    let q := updateSlots ss reads.tail now
    (p.1 :: q.1, p.2 ++ q.2)

/-- `btn_update`: step every slot, pushing each emitted event into the queue
in emission order. -/
def btn_update (ctx : BtnContext) (reads : List Bool) (now : Nat) :
    BtnContext :=
  let p := updateSlots ctx.slots reads now
  { slots := p.1, ring := pushMany ctx.ring p.2 }

/-- Run a sequence of `btn_update` calls. -/
def runUpdates (ctx : BtnContext) : List (List Bool × Nat) → BtnContext
  | [] => ctx
  | (reads, now) :: rest => runUpdates (btn_update ctx reads now) rest

/-- `find_index`: index of the first slot whose (non-NULL) config carries
the id, scanning in slot order. -/
def find_index : List BtnSlot → Nat → Option Nat
  | [], _ => none
  | s :: ss, id =>
    match s.config with
    | some cfg =>
      if cfg.id = id then some 0 else (find_index ss id).map (· + 1)
    | none => (find_index ss id).map (· + 1)

/-- `btn_get_dropped_events`. -/
def btn_get_dropped_events (ctx : BtnContext) : Nat :=
  ctx.ring.dropped_events

/-- `btn_is_pressed`: debounced logical state AND not suppressed. -/
def btn_is_pressed (ctx : BtnContext) (id : Nat) : Bool :=
  match find_index ctx.slots id with
  | none => false
  | some i =>
    match ctx.slots[i]? with
    | none => false
    | some slot =>
      match slot.state with
      | none => false
      | some st => st.logic_state && !st.suppressed

/-- `btn_suppress_events`: set the suppression flag and zero the click
accumulator and repeat counter of the identified slot. -/
def btn_suppress_events (ctx : BtnContext) (id : Nat) : BtnContext :=
  match find_index ctx.slots id with
  | none => ctx
  | some i =>
    match ctx.slots[i]? with
    | none => ctx
    | some slot =>
      match slot.state with
      | none => ctx
      | some st =>
        let st1 : BtnState :=
          { st with suppressed := true, click_count := 0,
                    hold_repeat_count := 0 }
        { ctx with slots := ctx.slots.set i ⟨slot.config, some st1⟩ }

theorem runTrace_append (cfg : BtnConfig) (st : BtnState)
    (l1 l2 : List (Nat × Bool)) :
    runTrace cfg st (l1 ++ l2) =
      ((runTrace cfg (runTrace cfg st l1).1 l2).1,
       (runTrace cfg st l1).2 ++ (runTrace cfg (runTrace cfg st l1).1 l2).2) := by
  induction l1 generalizing st with
  | nil => simp [runTrace]
  | cons hd tl ih =>
    obtain ⟨t, r⟩ := hd
    simp [runTrace, ih, List.append_assoc]

theorem runTrace_append_fst (cfg : BtnConfig) (st : BtnState)
    (l1 l2 : List (Nat × Bool)) :
    (runTrace cfg st (l1 ++ l2)).1 =
      (runTrace cfg (runTrace cfg st l1).1 l2).1 := by
  rw [runTrace_append]

theorem runTrace_append_snd (cfg : BtnConfig) (st : BtnState)
    (l1 l2 : List (Nat × Bool)) :
    (runTrace cfg st (l1 ++ l2)).2 =
      (runTrace cfg st l1).2 ++ (runTrace cfg (runTrace cfg st l1).1 l2).2 := by
  rw [runTrace_append]

/-- Configuration used for the multi-click analyses: id 1, active-high, no
interception callback, debounce 0 ms, click timeout 1 ms, long press 1 ms,
auto-repeat disabled. -/
def cfg0 : BtnConfig := ⟨1, false, true, none, 0, 1, 1, 0⟩

/-- One short press/release cycle polled at microsecond granularity: raw high
at `4j`, press edge at `4j+1`, raw low at `4j+2`, release edge at `4j+3`.
Each press lasts 2 µs (short) and consecutive cycles are 1 µs apart (well
inside the 1000 µs click timeout). -/
def clickCycle (j : Nat) : List (Nat × Bool) :=
  [(4*j, true), (4*j+1, true), (4*j+2, false), (4*j+3, false)]

/-- `n` consecutive short press/release cycles. -/
def clickCycles : Nat → List (Nat × Bool)
  | 0 => []
  | n+1 => clickCycles n ++ clickCycle n

/-- `n` short cycles followed by one poll after the click timeout expires. -/
def clickTrace (n : Nat) : List (Nat × Bool) :=
  clickCycles n ++ [(4*n + 1000, false)]

/-- The button state reached after `j ≥ 1` cycles of `clickCycles`: released,
with `j` accumulated clicks and the release anchor at time `4j−1`. -/
def midState (j : Nat) : BtnState :=
  ⟨false, false, false, 4*j-2, 4*j-3, 4*j-1, 4*j-3, j, 0⟩

theorem cycleStep (j : Nat) (h1 : 1 ≤ j) (h2 : j ≤ 253) :
    runTrace cfg0 (midState j) (clickCycle j) =
      (midState (j+1),
       [⟨1, BtnEventType.down, 0, 4*j+1⟩, ⟨1, BtnEventType.up, 0, 4*j+3⟩]) := by
  have d1 : u64sub (4*j) (4*j-1) = 1 := by simp only [u64sub, U64]; omega
  have d2 : u64sub (4*j+1) (4*j) = 1 := by simp only [u64sub, U64]; omega
  have d3 : u64sub (4*j+2) (4*j+1) = 1 := by simp only [u64sub, U64]; omega
  have d4 : u64sub (4*j+3) (4*j+2) = 1 := by simp only [u64sub, U64]; omega
  have d5 : u64sub (4*j+3) (4*j+1) = 2 := by simp only [u64sub, U64]; omega
  have g1 : 0 < j := h1
  have g2 : j ≠ 255 := by omega
  have g3 : j + 1 ≠ 255 := by omega
  have m1 : (j+1) % 256 = j+1 := Nat.mod_eq_of_lt (by omega)
  simp [clickCycle, runTrace, btnStep, debRecord, edgePhase, servicePhase,
        idlePhase, longPhase, emitList, cfg0, msToUs, midState, u64sub_self,
        d1, d2, d3, d4, d5, g1, g2, g3, m1, LONG_PRESS_ACTIVE]
  omega

/-- The Down/Up pairs emitted by `n` short cycles. -/
def downUps (n : Nat) : List BtnEvent :=
  (List.range n).flatMap
    (fun i => [⟨1, BtnEventType.down, 0, 4*i+1⟩, ⟨1, BtnEventType.up, 0, 4*i+3⟩])

theorem clickCycles_spec (j : Nat) (h1 : 1 ≤ j) (h2 : j ≤ 254) :
    runTrace cfg0 BtnState.init (clickCycles j) = (midState j, downUps j) := by
  induction j with
  | zero => omega
  | succ n ih =>
    rcases Nat.eq_or_lt_of_le h1 with h | h
    · have hn : n = 0 := by omega
      subst hn
      decide
    · have hn1 : 1 ≤ n := by omega
      have hn2 : n ≤ 253 := by omega
      have ihn := ih hn1 (by omega)
      show runTrace cfg0 BtnState.init (clickCycles n ++ clickCycle n) = _
      rw [runTrace_append, ihn]
      simp only
      rw [cycleStep n hn1 hn2]
      simp only [downUps, List.range_succ, List.flatMap_append]
      simp

theorem clickCycles_state (j : Nat) (h1 : 1 ≤ j) (h2 : j ≤ 254) :
    (runTrace cfg0 BtnState.init (clickCycles j)).1 = midState j := by
  rw [clickCycles_spec j h1 h2]

theorem clickCycles_events (j : Nat) (h1 : 1 ≤ j) (h2 : j ≤ 254) :
    (runTrace cfg0 BtnState.init (clickCycles j)).2 = downUps j := by
  rw [clickCycles_spec j h1 h2]

theorem clickCycles_succ_eq (n : Nat) :
    clickCycles (n+1) = clickCycles n ++ clickCycle n := rfl

/-- Boolean recognizer for Click events. -/
def isClick (e : BtnEvent) : Bool := e.type == BtnEventType.click

theorem clickTrace_events (N : Nat) (h1 : 1 ≤ N) (h2 : N ≤ 254) :
    (runTrace cfg0 BtnState.init (clickTrace N)).2 =
      downUps N ++ [⟨1, BtnEventType.click, N, 4*N-1⟩] := by
  unfold clickTrace
  rw [runTrace_append, clickCycles_spec N h1 h2]
  have dA : u64sub (4*N+1000) (4*N-2) = 1002 := by simp only [u64sub, U64]; omega
  have dB : u64sub (4*N+1000) (4*N-1) = 1001 := by simp only [u64sub, U64]; omega
  have g1 : 0 < N := h1
  have g2 : N ≠ 255 := by omega
  simp [runTrace, btnStep, debRecord, edgePhase, servicePhase, idlePhase,
        emitList, cfg0, msToUs, midState, dA, dB, g1, g2, LONG_PRESS_ACTIVE]

theorem downUps_filter_click (N : Nat) : (downUps N).filter isClick = [] := by
  rw [List.filter_eq_nil_iff]
  intro e he
  simp [downUps] at he
  obtain ⟨i, hi, h⟩ := he
  rcases h with h | h <;> simp [h, isClick]

/-- The 255th short cycle, started from the 254-click state: the release
increments the accumulator to the sentinel 0xFF, and the idle service of the
same pass clears it to 0, discarding the series without any Click. -/
theorem lastCycle_step :
    runTrace cfg0 (midState 254) (clickCycle 254) =
      (⟨false, false, false, 1018, 1017, 1019, 1017, 0, 0⟩,
       [⟨1, BtnEventType.down, 0, 1017⟩, ⟨1, BtnEventType.up, 0, 1019⟩]) := by
  decide

/-- C4 (amended): for 1 ≤ N ≤ 254, a series of N short presses with short
gaps followed by silence past the click timeout yields exactly one Click
event, with count N and timestamp `4N−1`, the time of the last release edge
in the series (not the timeout expiry `4N+1000`). -/
theorem c4_multiclick_amended (N : Nat) (h1 : 1 ≤ N) (h2 : N ≤ 254) :
    (runTrace cfg0 BtnState.init (clickTrace N)).2.filter isClick =
      [⟨1, BtnEventType.click, N, 4*N-1⟩] := by
  rw [clickTrace_events N h1 h2, List.filter_append, downUps_filter_click]
  simp [isClick]

/-- Witness for C4 at N = 3: one Click with count 3, timestamped at the
third release (t = 11 µs). -/
theorem c4_multiclick_witness :
    (runTrace cfg0 BtnState.init (clickTrace 3)).2.filter isClick =
      [⟨1, BtnEventType.click, 3, 11⟩] :=
  c4_multiclick_amended 3 (by omega) (by omega)

/-- C4 counterexample: at N = 255 the claim "for every N ≥ 1 ... exactly one
Click whose count equals N" fails: the 255-click series produces no Click at
all, because the 255th increment makes the accumulator collide with the
`LONG_PRESS_ACTIVE` sentinel and the series is discarded. -/
theorem c4_multiclick_counterexample :
    (runTrace cfg0 BtnState.init (clickTrace 255)).2.filter isClick = [] := by
  show (runTrace cfg0 BtnState.init
    (clickCycles 255 ++ [(2020, false)])).2.filter isClick = []
  rw [runTrace_append_snd, clickCycles_succ_eq, runTrace_append_snd,
      runTrace_append_fst, clickCycles_state 254 (by omega) (by omega),
      clickCycles_events 254 (by omega) (by omega)]
  rw [lastCycle_step]
  simp only [List.filter_append]
  rw [downUps_filter_click]
  decide

/-- C3 (amended): the click accumulator and the long-press sentinel are
mutually exclusive only for series of up to 254 clicks.  After k ≤ 254 short
cycles the accumulator holds k ≠ 0xFF; but a 255th short release makes the
accumulated count collide with the sentinel, whereupon the same update pass
clears it to 0 and the pending series is silently discarded (no Click is
ever emitted for it, even after the click timeout). -/
theorem c3_sentinel_amended :
    (∀ k, 1 ≤ k → k ≤ 254 →
       (runTrace cfg0 BtnState.init (clickCycles k)).1.click_count = k ∧
         k ≠ LONG_PRESS_ACTIVE)
    ∧ (runTrace cfg0 BtnState.init (clickCycles 255)).1.click_count = 0
    ∧ (runTrace cfg0 BtnState.init
        (clickCycles 255 ++ [(2020, false)])).2.filter isClick = [] := by
  refine ⟨fun k hk1 hk2 => ?_, ?_, ?_⟩
  · rw [clickCycles_state k hk1 hk2]
    exact ⟨rfl, by unfold LONG_PRESS_ACTIVE; omega⟩
  · rw [clickCycles_succ_eq, runTrace_append_fst,
        clickCycles_state 254 (by omega) (by omega), lastCycle_step]
  · rw [runTrace_append_snd, clickCycles_succ_eq, runTrace_append_snd,
        runTrace_append_fst, clickCycles_state 254 (by omega) (by omega),
        clickCycles_events 254 (by omega) (by omega)]
    rw [lastCycle_step]
    simp only [List.filter_append]
    rw [downUps_filter_click]
    decide

/-- Witness for C3 (amended), first conjunct at k = 5. -/
theorem c3_sentinel_witness :
    (runTrace cfg0 BtnState.init (clickCycles 5)).1.click_count = 5 ∧
      (5 : Nat) ≠ LONG_PRESS_ACTIVE :=
  c3_sentinel_amended.1 5 (by omega) (by omega)

/-- C3 counterexample: a sequence of 255 short press/release cycles within
the click timeout drives the accumulated click count into the reserved
sentinel value.  Shown at the point of the 255th pass where the release
accounting (edge phase) has run: the accumulator holds `LONG_PRESS_ACTIVE`,
which the idle service of the same pass then treats as a long-press marker
and clears, destroying the series. -/
theorem c3_sentinel_counterexample :
    (edgePhase cfg0
      (debRecord
        (runTrace cfg0 BtnState.init
          (clickCycles 254 ++ [(1016, true), (1017, true), (1018, false)])).1
        false 1019)
      false 1019).1.click_count = LONG_PRESS_ACTIVE := by
  rw [runTrace_append_fst, clickCycles_state 254 (by omega) (by omega)]
  decide

/-- Configuration used for the threshold-boundary analysis: debounce 0 ms,
click timeout 1 ms, long press 10 ms, no repeat, no callback. -/
def cfgC2 : BtnConfig := ⟨1, false, true, none, 0, 1, 10, 0⟩

/-- C2 (amended): on a logical release edge whose completed duration is
exactly the long-press threshold, the press is treated as LONG, not short:
the click accumulator is reset to 0 and the release anchor is left unchanged
(the release side uses `duration < long_press`, so equality falls into the
long branch, unlike the hold side's strict greater-than).  The Up event is
still emitted. -/
theorem c2_threshold_amended (cfg : BtnConfig) (st : BtnState) (now : Nat)
    (hal : cfg.active_low = false) (hcb : cfg.callback = none)
    (hsup : st.suppressed = false) (hlog : st.logic_state = true)
    (hraw : st.raw_state = false)
    (hdeb : u64sub now st.last_debounce_time > msToUs cfg.debounce_ms)
    (hdur : u64sub now st.state_start_time = msToUs cfg.long_press_ms) :
    (btnStep cfg st false now).1.click_count = 0 ∧
    (btnStep cfg st false now).1.last_release_time = st.last_release_time ∧
    (btnStep cfg st false now).2 = [⟨cfg.id, BtnEventType.up, 0, now⟩] := by
  simp [btnStep, debRecord, edgePhase, servicePhase, idlePhase, emitList,
        hal, hcb, hsup, hlog, hraw, hdeb, hdur, LONG_PRESS_ACTIVE]

/-- Witness for C2 (amended): a press at t = 1 µs released at t = 10001 µs
(duration exactly 10000 µs = long_press_ms · 1000) resets the accumulator
and leaves the release anchor (7) untouched. -/
theorem c2_threshold_witness :
    (btnStep cfgC2 ⟨true, false, false, 9999, 1, 7, 1, 0, 0⟩ false 10001).1.click_count = 0 ∧
    (btnStep cfgC2 ⟨true, false, false, 9999, 1, 7, 1, 0, 0⟩ false 10001).1.last_release_time = 7 ∧
    (btnStep cfgC2 ⟨true, false, false, 9999, 1, 7, 1, 0, 0⟩ false 10001).2 =
      [⟨1, BtnEventType.up, 0, 10001⟩] :=
  c2_threshold_amended cfgC2 ⟨true, false, false, 9999, 1, 7, 1, 0, 0⟩ 10001
    rfl rfl rfl rfl rfl (by decide) (by decide)

/-- C2 counterexample: a press edge at t = 1 µs and release edge at
t = 10001 µs has duration exactly equal to the 10000 µs threshold; the claim
says this increments the click accumulator (to 1), but the code leaves it at
0 (the long branch runs). -/
theorem c2_threshold_counterexample :
    u64sub 10001 1 = msToUs cfgC2.long_press_ms ∧
    (runTrace cfgC2 BtnState.init
      [(0, true), (1, true), (9999, false), (10001, false)]).1.click_count = 0 ∧
    ¬((runTrace cfgC2 BtnState.init
        [(0, true), (1, true), (9999, false), (10001, false)]).1.click_count = 1) := by
  decide

theorem emitList_length (cfg : BtnConfig) (st : BtnState) (ty : BtnEventType)
    (clicks ts : Nat) : (emitList cfg st ty clicks ts).length ≤ 1 := by
  unfold emitList
  rcases h : cfg.callback with _ | cb <;> simp only [h] <;> split_ifs <;> simp

theorem edgePhase_skip1 (cfg : BtnConfig) (st : BtnState) (raw : Bool) (now : Nat)
    (h : ¬ u64sub now st.last_debounce_time > msToUs cfg.debounce_ms) :
    edgePhase cfg st raw now = (st, []) := by
  unfold edgePhase
  rw [if_neg h]

theorem edgePhase_skip2 (cfg : BtnConfig) (st : BtnState) (raw : Bool) (now : Nat)
    (h : st.logic_state = raw) :
    edgePhase cfg st raw now = (st, []) := by
  simp [edgePhase, h]

theorem edgePhase_press_facts (cfg : BtnConfig) (st : BtnState) (now : Nat)
    (hdeb : u64sub now st.last_debounce_time > msToUs cfg.debounce_ms)
    (hlog : st.logic_state = false) :
    (edgePhase cfg st true now).2.length ≤ 1 ∧
    (edgePhase cfg st true now).1.logic_state = true ∧
    (edgePhase cfg st true now).1.state_start_time = now := by
  simp [edgePhase, hdeb, hlog, emitList_length]

theorem edgePhase_release_facts (cfg : BtnConfig) (st : BtnState) (now : Nat)
    (hdeb : u64sub now st.last_debounce_time > msToUs cfg.debounce_ms)
    (hlog : st.logic_state = true) :
    (edgePhase cfg st false now).2.length ≤ 1 ∧
    (edgePhase cfg st false now).1.logic_state = false ∧
    ((edgePhase cfg st false now).1.suppressed = true ∨
     (edgePhase cfg st false now).1.click_count = 0 ∨
     (edgePhase cfg st false now).1.last_release_time = now) := by
  unfold edgePhase
  rw [if_pos hdeb]
  by_cases hs : st.suppressed = false
  · by_cases hd : u64sub now st.state_start_time < msToUs cfg.long_press_ms
    · simp [hlog, hs, hd, emitList_length]
    · simp [hlog, hs, hd, emitList_length]
  · simp [hlog, hs, emitList_length]

theorem longPhase_length (cfg : BtnConfig) (st : BtnState) (now : Nat) :
    (longPhase cfg st now).2.length ≤ 1 := by
  by_cases h : st.click_count = LONG_PRESS_ACTIVE
  · unfold longPhase
    simp only [h, ne_eq, not_true_eq_false, ite_false, if_false]
    split_ifs <;> simp [emitList_length]
  · unfold longPhase
    simp only [ne_eq, h, not_false_eq_true, ite_true, if_true]
    simp [u64sub_self, emitList_length, Nat.not_lt_zero]

theorem idlePhase_length (cfg : BtnConfig) (st : BtnState) (now : Nat) :
    (idlePhase cfg st now).2.length ≤ 1 := by
  unfold idlePhase
  dsimp only
  split_ifs <;> simp [emitList_length]

theorem servicePhase_length (cfg : BtnConfig) (st : BtnState) (now : Nat) :
    (servicePhase cfg st now).2.length ≤ 1 := by
  unfold servicePhase
  split_ifs
  · exact longPhase_length cfg st now
  · simp
  · exact idlePhase_length cfg st now

theorem servicePhase_after_press (cfg : BtnConfig) (st : BtnState) (now : Nat)
    (h1 : st.logic_state = true) (h2 : st.state_start_time = now) :
    servicePhase cfg st now = (st, []) := by
  simp [servicePhase, h1, h2, u64sub_self, Nat.not_lt_zero]

theorem idlePhase_nil_suppressed (cfg : BtnConfig) (st : BtnState) (now : Nat)
    (h : st.suppressed = true) : (idlePhase cfg st now).2 = [] := by
  unfold idlePhase
  dsimp only
  split_ifs <;> simp_all [LONG_PRESS_ACTIVE]

theorem idlePhase_nil_zero (cfg : BtnConfig) (st : BtnState) (now : Nat)
    (h : st.click_count = 0) : (idlePhase cfg st now).2 = [] := by
  simp [idlePhase, h, LONG_PRESS_ACTIVE]

theorem idlePhase_nil_release_now (cfg : BtnConfig) (st : BtnState) (now : Nat)
    (h : st.last_release_time = now) : (idlePhase cfg st now).2 = [] := by
  unfold idlePhase
  simp only [h, u64sub_self]
  split_ifs <;> simp_all

/-- C9: during a single update pass, one slot admits at most one event to
the queue: the per-slot loop body hands at most one event to `push_event`
(Down excludes a same-pass LongStart because the hold anchor is `now`; Up
excludes a same-pass Click because the release anchor is `now` or the
accumulator was cleared; LongStart excludes a same-pass LongHold because the
repeat anchor is `now`). -/
theorem c9_single_admission_thm (cfg : BtnConfig) (st : BtnState)
    (rawIn : Bool) (now : Nat) :
    (btnStep cfg st rawIn now).2.length ≤ 1 := by
  have key : ∀ raw : Bool,
      (edgePhase cfg (debRecord st raw now) raw now).2.length +
      (servicePhase cfg (edgePhase cfg (debRecord st raw now) raw now).1 now).2.length ≤ 1 := by
    intro raw
    set st1 := debRecord st raw now with hst1
    by_cases hdeb : u64sub now st1.last_debounce_time > msToUs cfg.debounce_ms
    · by_cases hlog : st1.logic_state = raw
      · rw [edgePhase_skip2 cfg st1 raw now hlog]
        simpa using servicePhase_length cfg st1 now
      · cases raw with
        | true =>
          have hl : st1.logic_state = false := by
            cases hq : st1.logic_state
            · rfl
            · exact absurd hq hlog
          obtain ⟨l1, l2, l3⟩ := edgePhase_press_facts cfg st1 now hdeb hl
          rw [servicePhase_after_press cfg _ now l2 l3]
          simpa using l1
        | false =>
          have hl : st1.logic_state = true := by
            cases hq : st1.logic_state
            · exact absurd hq hlog
            · rfl
          obtain ⟨l1, l2, l3⟩ := edgePhase_release_facts cfg st1 now hdeb hl
          have hq : (servicePhase cfg (edgePhase cfg st1 false now).1 now).2 = [] := by
            unfold servicePhase
            rw [l2]
            simp only [Bool.false_eq_true, if_false]
            rcases l3 with h | h | h
            · exact idlePhase_nil_suppressed cfg _ now h
            · exact idlePhase_nil_zero cfg _ now h
            · exact idlePhase_nil_release_now cfg _ now h
          rw [hq]
          simpa using l1
    · rw [edgePhase_skip1 cfg st1 raw now hdeb]
      simpa using servicePhase_length cfg st1 now
  have hb := key (if cfg.active_low then !rawIn else rawIn)
  simpa [btnStep, List.length_append] using hb

theorem emitList_type (cfg : BtnConfig) (st : BtnState) (ty : BtnEventType)
    (clicks ts : Nat) : ∀ e ∈ emitList cfg st ty clicks ts, e.type = ty := by
  unfold emitList
  rcases h : cfg.callback with _ | cb <;> simp only [h] <;> split_ifs <;> simp

theorem longPhase_no_du (cfg : BtnConfig) (st : BtnState) (now : Nat) :
    ∀ e ∈ (longPhase cfg st now).2,
      e.type ≠ BtnEventType.down ∧ e.type ≠ BtnEventType.up := by
  unfold longPhase
  dsimp only
  split_ifs <;> intro e he <;>
    simp only [List.mem_append, List.not_mem_nil, false_or, or_false] at he <;>
    (try rcases he with he | he) <;>
    (have ht := emitList_type _ _ _ _ _ e he; simp [ht])

theorem idlePhase_no_du (cfg : BtnConfig) (st : BtnState) (now : Nat) :
    ∀ e ∈ (idlePhase cfg st now).2,
      e.type ≠ BtnEventType.down ∧ e.type ≠ BtnEventType.up := by
  unfold idlePhase
  dsimp only
  split_ifs <;> intro e he <;> dsimp only at he <;>
    first
      | exact absurd he (List.not_mem_nil e)
      | (have ht := emitList_type _ _ _ _ _ e he; simp [ht])

theorem servicePhase_no_du (cfg : BtnConfig) (st : BtnState) (now : Nat) :
    ∀ e ∈ (servicePhase cfg st now).2,
      e.type ≠ BtnEventType.down ∧ e.type ≠ BtnEventType.up := by
  unfold servicePhase
  split_ifs
  · exact longPhase_no_du cfg st now
  · intro e he; cases he
  · exact idlePhase_no_du cfg st now

theorem longPhase_logic (cfg : BtnConfig) (st : BtnState) (now : Nat) :
    (longPhase cfg st now).1.logic_state = st.logic_state := by
  unfold longPhase
  dsimp only
  split_ifs <;> simp

theorem idlePhase_logic (cfg : BtnConfig) (st : BtnState) (now : Nat) :
    (idlePhase cfg st now).1.logic_state = st.logic_state := by
  unfold idlePhase
  dsimp only
  split_ifs <;> simp

theorem servicePhase_logic (cfg : BtnConfig) (st : BtnState) (now : Nat) :
    (servicePhase cfg st now).1.logic_state = st.logic_state := by
  unfold servicePhase
  split_ifs
  · exact longPhase_logic cfg st now
  · rfl
  · exact idlePhase_logic cfg st now

theorem btnStep_guarded (cfg : BtnConfig) (st : BtnState) (r : Bool) (t : Nat)
    (hc : (if cfg.active_low then !r else r) ≠ st.raw_state ∨
          u64sub t st.last_debounce_time ≤ msToUs cfg.debounce_ms) :
    (btnStep cfg st r t).1.logic_state = st.logic_state ∧
    ∀ e ∈ (btnStep cfg st r t).2,
      e.type ≠ BtnEventType.down ∧ e.type ≠ BtnEventType.up := by
  unfold btnStep
  dsimp only
  generalize hg : (if cfg.active_low then !r else r) = raw at hc ⊢
  by_cases hch : raw = st.raw_state
  · have hdr : debRecord st raw t = st := by
      unfold debRecord
      simp [hch]
    have hle : u64sub t st.last_debounce_time ≤ msToUs cfg.debounce_ms := by
      rcases hc with h | h
      · exact absurd hch h
      · exact h
    rw [hdr, edgePhase_skip1 cfg st raw t (by omega)]
    dsimp only
    refine ⟨servicePhase_logic cfg st t, ?_⟩
    intro e he
    simp only [List.nil_append] at he
    exact servicePhase_no_du cfg st t e he
  · have hdr : debRecord st raw t =
        { st with last_debounce_time := t, raw_state := raw } := by
      unfold debRecord
      rw [if_pos hch]
    rw [hdr, edgePhase_skip1 cfg _ raw t (by simp [u64sub_self])]
    dsimp only
    refine ⟨servicePhase_logic cfg _ t, ?_⟩
    intro e he
    simp only [List.nil_append] at he
    exact servicePhase_no_du cfg _ t e he

/-- Boolean trace predicate for C7: at every poll, either the
polarity-corrected raw reading differs from the recorded raw state (so the
pass resets the debounce anchor), or the poll arrives within the debounce
window of the current anchor. -/
def fastOsc (cfg : BtnConfig) : BtnState → List (Nat × Bool) → Bool
  | _, [] => true
  | st, (t, r) :: ps =>
    (((if cfg.active_low then !r else r) != st.raw_state) ||
      decide (u64sub t st.last_debounce_time ≤ msToUs cfg.debounce_ms)) &&
    fastOsc cfg (btnStep cfg st r t).1 ps

/-- C7: if at every poll the raw reading either differs from the recorded
raw state (resetting the debounce anchor) or arrives within the debounce
window of the anchor — i.e. the raw signal oscillates faster than the
debounce window — then the debounced logical state never changes across any
number of update passes, and no Down or Up event is emitted. -/
theorem c7_debounce_thm (cfg : BtnConfig) (st : BtnState)
    (polls : List (Nat × Bool)) (h : fastOsc cfg st polls = true) :
    (runTrace cfg st polls).1.logic_state = st.logic_state ∧
    ∀ e ∈ (runTrace cfg st polls).2,
      e.type ≠ BtnEventType.down ∧ e.type ≠ BtnEventType.up := by
  induction polls generalizing st with
  | nil => exact ⟨rfl, fun e he => absurd he (List.not_mem_nil e)⟩
  | cons hd tl ih =>
    obtain ⟨t, r⟩ := hd
    unfold fastOsc at h
    rw [Bool.and_eq_true] at h
    obtain ⟨h1, h2⟩ := h
    have hc : (if cfg.active_low then !r else r) ≠ st.raw_state ∨
        u64sub t st.last_debounce_time ≤ msToUs cfg.debounce_ms := by
      rcases Bool.or_eq_true_iff.mp h1 with h | h
      · exact Or.inl (by simpa using h)
      · exact Or.inr (by simpa using h)
    obtain ⟨g1, g2⟩ := btnStep_guarded cfg st r t hc
    obtain ⟨i1, i2⟩ := ih (btnStep cfg st r t).1 h2
    constructor
    · show (runTrace cfg (btnStep cfg st r t).1 tl).1.logic_state = _
      rw [i1, g1]
    · intro e he
      simp only [runTrace, List.mem_append] at he
      rcases he with he | he
      · exact g2 e he
      · exact i2 e he

/-- Configuration for the C7 witness: 1 ms debounce window. -/
def cfgC7 : BtnConfig := ⟨1, false, true, none, 1, 200, 500, 0⟩

/-- Witness for C7: a raw signal flipping every 500 µs under a 1000 µs
debounce window never changes the logical state and emits nothing. -/
theorem c7_debounce_witness :
    fastOsc cfgC7 BtnState.init
      [(0, true), (500, false), (1000, true), (1500, false), (2000, true)] = true ∧
    (runTrace cfgC7 BtnState.init
      [(0, true), (500, false), (1000, true), (1500, false), (2000, true)]).1.logic_state =
      BtnState.init.logic_state ∧
    ∀ e ∈ (runTrace cfgC7 BtnState.init
      [(0, true), (500, false), (1000, true), (1500, false), (2000, true)]).2,
      e.type ≠ BtnEventType.down ∧ e.type ≠ BtnEventType.up := by
  refine ⟨by decide, ?_⟩
  exact c7_debounce_thm cfgC7 BtnState.init _ (by decide)

theorem emitList_nil_suppressed (cfg : BtnConfig) (st : BtnState)
    (ty : BtnEventType) (clicks ts : Nat) (h : st.suppressed = true) :
    emitList cfg st ty clicks ts = [] := by
  unfold emitList
  rw [if_pos h]

theorem emitList_plain (cfg : BtnConfig) (st : BtnState) (ty : BtnEventType)
    (clicks ts : Nat) (hs : st.suppressed = false) (hcb : cfg.callback = none) :
    emitList cfg st ty clicks ts = [⟨cfg.id, ty, clicks, ts⟩] := by
  unfold emitList
  rw [if_neg (by simp [hs]), hcb]

/-- Does this slot's config match the id (C: `config && config->id == id`)? -/
def headMatch (s : BtnSlot) (id : Nat) : Bool :=
  match s.config with
  | some cfg => if cfg.id = id then true else false
  | none => false

theorem find_index_cons (s : BtnSlot) (ss : List BtnSlot) (id : Nat) :
    find_index (s :: ss) id =
      if headMatch s id then some 0 else (find_index ss id).map (· + 1) := by
  rcases hcfg : s.config with _ | cfg
  · simp [find_index, headMatch, hcfg]
  · by_cases hi : cfg.id = id <;> simp [find_index, headMatch, hcfg, hi]

theorem is_pressed_cons_skip (s : BtnSlot) (l : List BtnSlot) (ring : RingCtx)
    (id : Nat) (h : headMatch s id = false) :
    btn_is_pressed ⟨s :: l, ring⟩ id = btn_is_pressed ⟨l, ring⟩ id := by
  unfold btn_is_pressed
  dsimp only
  rw [find_index_cons, if_neg (by simp [h])]
  rcases hf : find_index l id with _ | j <;> simp [hf]

theorem suppress_ring (ctx : BtnContext) (id : Nat) :
    (btn_suppress_events ctx id).ring = ctx.ring := by
  unfold btn_suppress_events
  split
  · rfl
  · split
    · rfl
    · split
      · rfl
      · rfl

theorem suppress_cons_skip (s : BtnSlot) (l : List BtnSlot) (ring : RingCtx)
    (id : Nat) (h : headMatch s id = false) :
    btn_suppress_events ⟨s :: l, ring⟩ id =
      ⟨s :: (btn_suppress_events ⟨l, ring⟩ id).slots, ring⟩ := by
  unfold btn_suppress_events
  dsimp only
  rw [find_index_cons, if_neg (by simp [h])]
  rcases hf : find_index l id with _ | j
  · simp [hf]
  · rcases hsl : l[j]? with _ | slot
    · simp [hf, hsl]
    · rcases hstate : slot.state with _ | st <;>
        simp [hf, hsl, hstate, List.set_cons_succ]

theorem suppress_is_pressed_false (slots : List BtnSlot) (ring : RingCtx)
    (id : Nat) :
    btn_is_pressed (btn_suppress_events ⟨slots, ring⟩ id) id = false := by
  induction slots with
  | nil => rfl
  | cons s ss ih =>
    by_cases hm : headMatch s id = true
    · have hfind : find_index (s :: ss) id = some 0 := by
        rw [find_index_cons, if_pos hm]
      rcases hstate : s.state with _ | st
      · unfold btn_suppress_events
        rw [hfind]
        simp only [List.getElem?_cons_zero, Option.getD_some, hstate]
        unfold btn_is_pressed
        rw [hfind]
        simp [hstate]
      · unfold btn_suppress_events
        rw [hfind]
        simp only [List.getElem?_cons_zero, hstate]
        unfold btn_is_pressed
        dsimp only
        rw [List.set_cons_zero, find_index_cons]
        have hm1 : headMatch (BtnSlot.mk s.config (some
            { st with suppressed := true, click_count := 0,
                      hold_repeat_count := 0 })) id = true := by
          unfold headMatch at hm ⊢
          exact hm
        rw [if_pos hm1]
        simp
    · have hm0 : headMatch s id = false := by
        cases hq : headMatch s id
        · rfl
        · exact absurd hq hm
      rw [suppress_cons_skip s ss ring id hm0]
      rw [is_pressed_cons_skip s _ ring id hm0]
      have hring : btn_suppress_events ⟨ss, ring⟩ id =
          ⟨(btn_suppress_events ⟨ss, ring⟩ id).slots, ring⟩ := by
        have h2 := suppress_ring ⟨ss, ring⟩ id
        cases hq : btn_suppress_events ⟨ss, ring⟩ id with
        | mk sl rg =>
          rw [hq] at h2
          simp only at h2
          rw [h2]
      rw [← hring]
      exact ih

theorem longPhase_suppressed (cfg : BtnConfig) (st : BtnState) (now : Nat)
    (h : st.suppressed = true) :
    (longPhase cfg st now).2 = [] ∧
    (longPhase cfg st now).1.suppressed = true := by
  unfold longPhase
  dsimp only
  split_ifs <;> simp_all [emitList]

theorem idlePhase_suppressed (cfg : BtnConfig) (st : BtnState) (now : Nat)
    (h : st.suppressed = true) :
    (idlePhase cfg st now).2 = [] ∧
    (idlePhase cfg st now).1.suppressed = true := by
  unfold idlePhase
  dsimp only
  split_ifs <;> simp_all [emitList]

theorem servicePhase_suppressed (cfg : BtnConfig) (st : BtnState) (now : Nat)
    (h : st.suppressed = true) :
    (servicePhase cfg st now).2 = [] ∧
    (servicePhase cfg st now).1.suppressed = true := by
  unfold servicePhase
  split_ifs
  · exact longPhase_suppressed cfg st now h
  · exact ⟨rfl, h⟩
  · exact idlePhase_suppressed cfg st now h

theorem edgePhase_press_eq (cfg : BtnConfig) (st : BtnState) (now : Nat)
    (hdeb : u64sub now st.last_debounce_time > msToUs cfg.debounce_ms)
    (hlog : st.logic_state = false) :
    edgePhase cfg st true now =
      ({ st with logic_state := true, state_start_time := now,
                 last_repeat_time := now, hold_repeat_count := 0,
                 suppressed := false },
       emitList cfg
         { st with logic_state := true, state_start_time := now,
                   last_repeat_time := now, hold_repeat_count := 0,
                   suppressed := false } BtnEventType.down 0 now) := by
  unfold edgePhase
  rw [if_pos hdeb]
  simp [hlog]

theorem edgePhase_release_suppressed_eq (cfg : BtnConfig) (st : BtnState)
    (now : Nat)
    (hdeb : u64sub now st.last_debounce_time > msToUs cfg.debounce_ms)
    (hlog : st.logic_state = true) (hs : st.suppressed = true) :
    edgePhase cfg st false now = ({ st with logic_state := false }, []) := by
  unfold edgePhase
  rw [if_pos hdeb]
  simp [hlog, hs, emitList]

theorem debRecord_logic (st : BtnState) (raw : Bool) (now : Nat) :
    (debRecord st raw now).logic_state = st.logic_state := by
  unfold debRecord
  split_ifs <;> simp

theorem debRecord_suppressed (st : BtnState) (raw : Bool) (now : Nat) :
    (debRecord st raw now).suppressed = st.suppressed := by
  unfold debRecord
  split_ifs <;> simp

theorem btnStep_suppressed (cfg : BtnConfig) (st : BtnState) (r : Bool)
    (now : Nat) (hs : st.suppressed = true) (hcb : cfg.callback = none) :
    ((btnStep cfg st r now).2 = [] ∧ (btnStep cfg st r now).1.suppressed = true) ∨
    ((btnStep cfg st r now).2 = [⟨cfg.id, BtnEventType.down, 0, now⟩] ∧
     (btnStep cfg st r now).1.suppressed = false ∧
     st.logic_state = false ∧ (btnStep cfg st r now).1.logic_state = true) := by
  unfold btnStep
  dsimp only
  generalize (if cfg.active_low then !r else r) = raw
  have hdr1 : (debRecord st raw now).suppressed = true := by
    rw [debRecord_suppressed]; exact hs
  have hdrl : (debRecord st raw now).logic_state = st.logic_state :=
    debRecord_logic st raw now
  set st1 := debRecord st raw now with hst1
  by_cases hdeb : u64sub now st1.last_debounce_time > msToUs cfg.debounce_ms
  · by_cases hlog : st1.logic_state = raw
    · rw [edgePhase_skip2 cfg st1 raw now hlog]
      dsimp only
      obtain ⟨n1, n2⟩ := servicePhase_suppressed cfg st1 now hdr1
      exact Or.inl ⟨by simp [n1], n2⟩
    · cases raw with
      | true =>
        have hl : st1.logic_state = false := by
          cases hq : st1.logic_state
          · rfl
          · exact absurd hq hlog
        rw [edgePhase_press_eq cfg st1 now hdeb hl]
        dsimp only
        rw [servicePhase_after_press cfg _ now rfl rfl]
        dsimp only
        refine Or.inr ⟨?_, rfl, ?_, rfl⟩
        · rw [emitList_plain cfg _ _ _ _ rfl hcb]
          simp
        · rw [← hdrl]
          exact hl
      | false =>
        have hl : st1.logic_state = true := by
          cases hq : st1.logic_state
          · exact absurd hq hlog
          · rfl
        rw [edgePhase_release_suppressed_eq cfg st1 now hdeb hl hdr1]
        dsimp only
        have hsup1 : ({ st1 with logic_state := false } : BtnState).suppressed = true := hdr1
        obtain ⟨n1, n2⟩ := servicePhase_suppressed cfg { st1 with logic_state := false } now hsup1
        exact Or.inl ⟨by simp [n1], n2⟩
  · rw [edgePhase_skip1 cfg st1 raw now hdeb]
    dsimp only
    obtain ⟨n1, n2⟩ := servicePhase_suppressed cfg st1 now hdr1
    exact Or.inl ⟨by simp [n1], n2⟩

theorem runTrace_suppressed_hold (cfg : BtnConfig) (st : BtnState)
    (polls : List (Nat × Bool))
    (hs : st.suppressed = true) (hlog : st.logic_state = true)
    (hr : ∀ p ∈ polls, (if cfg.active_low then !p.2 else p.2) = true) :
    (runTrace cfg st polls).2 = [] ∧
    (runTrace cfg st polls).1.suppressed = true ∧
    (runTrace cfg st polls).1.logic_state = true := by
  induction polls generalizing st with
  | nil => exact ⟨rfl, hs, hlog⟩
  | cons hd tl ih =>
    obtain ⟨t, r⟩ := hd
    have hr0 : (if cfg.active_low then !r else r) = true := hr (t, r) (by simp)
    have hstep : (btnStep cfg st r t).2 = [] ∧
        (btnStep cfg st r t).1.suppressed = true ∧
        (btnStep cfg st r t).1.logic_state = true := by
      unfold btnStep
      dsimp only
      rw [hr0]
      have h1 : (debRecord st true t).logic_state = true := by
        rw [debRecord_logic]; exact hlog
      have h2 : (debRecord st true t).suppressed = true := by
        rw [debRecord_suppressed]; exact hs
      rw [edgePhase_skip2 cfg _ true t h1]
      dsimp only
      obtain ⟨n1, n2⟩ := servicePhase_suppressed cfg (debRecord st true t) t h2
      refine ⟨by simp [n1], n2, ?_⟩
      rw [servicePhase_logic]
      exact h1
    obtain ⟨s1, s2, s3⟩ := hstep
    obtain ⟨i1, i2, i3⟩ := ih (btnStep cfg st r t).1 s2 s3
      (fun p hp => hr p (List.mem_cons_of_mem _ hp))
    refine ⟨?_, i2, i3⟩
    show ((btnStep cfg st r t).2 ++ (runTrace cfg (btnStep cfg st r t).1 tl).2) = []
    rw [s1, i1]
    rfl

theorem btnStep_fresh_press (cfg : BtnConfig) (st : BtnState) (now : Nat)
    (hcb : cfg.callback = none) (hal : cfg.active_low = false)
    (hlog : st.logic_state = false) (hraw : st.raw_state = true)
    (hdeb : u64sub now st.last_debounce_time > msToUs cfg.debounce_ms) :
    (btnStep cfg st true now).2 = [⟨cfg.id, BtnEventType.down, 0, now⟩] ∧
    (btnStep cfg st true now).1.suppressed = false ∧
    (btnStep cfg st true now).1.logic_state = true := by
  have hr : (if cfg.active_low then !true else true) = true := by
    rw [hal]
    rfl
  unfold btnStep
  dsimp only
  rw [hr]
  have hdr : debRecord st true now = st := by
    unfold debRecord
    rw [if_neg (by simp [hraw])]
  rw [hdr, edgePhase_press_eq cfg st now hdeb hlog]
  dsimp only
  rw [servicePhase_after_press cfg _ now rfl rfl]
  dsimp only
  refine ⟨?_, rfl, rfl⟩
  rw [emitList_plain cfg _ _ _ _ rfl hcb]
  simp


/-- Configuration for the C8 witness: id 2, 1 ms debounce, 300 ms long press,
50 ms auto-repeat. -/
def cfgC8 : BtnConfig := ⟨2, false, true, none, 1, 200, 300, 50⟩

/-- A state suppressed mid-hold: logically pressed since t = 1000 µs, raw
still high, suppression flag set (as `btn_suppress_events` leaves it). -/
def stC8 : BtnState := ⟨true, true, true, 0, 1000, 0, 1000, 0, 0⟩

/-- C8: suppression semantics.  (1) While the suppression flag is set, an
update pass emits nothing — the only possible emission is a Down at a fresh
logical press, which also clears the flag.  (2) For the remainder of a
physical hold (raw input still active), a suppressed pressed button emits no
event at all and stays suppressed and pressed.  (3) Immediately after
`btn_suppress_events`, `btn_is_pressed` reports false for that id, whatever
the physical signal.  (4) On the next fresh logical press edge the flag is
cleared, exactly one Down is emitted, and the state machine is back in the
normal pressed state. -/
theorem c8_suppress_thm :
    (∀ (cfg : BtnConfig) (st : BtnState) (r : Bool) (now : Nat),
        st.suppressed = true → cfg.callback = none →
        ((btnStep cfg st r now).2 = [] ∧
          (btnStep cfg st r now).1.suppressed = true) ∨
        ((btnStep cfg st r now).2 = [⟨cfg.id, BtnEventType.down, 0, now⟩] ∧
          (btnStep cfg st r now).1.suppressed = false ∧
          st.logic_state = false ∧
          (btnStep cfg st r now).1.logic_state = true)) ∧
    (∀ (cfg : BtnConfig) (st : BtnState) (polls : List (Nat × Bool)),
        st.suppressed = true → st.logic_state = true →
        (∀ p ∈ polls, (if cfg.active_low then !p.2 else p.2) = true) →
        (runTrace cfg st polls).2 = [] ∧
        (runTrace cfg st polls).1.suppressed = true ∧
        (runTrace cfg st polls).1.logic_state = true) ∧
    (∀ (slots : List BtnSlot) (ring : RingCtx) (id : Nat),
        btn_is_pressed (btn_suppress_events ⟨slots, ring⟩ id) id = false) ∧
    (∀ (cfg : BtnConfig) (st : BtnState) (now : Nat),
        cfg.callback = none → cfg.active_low = false →
        st.logic_state = false → st.raw_state = true →
        u64sub now st.last_debounce_time > msToUs cfg.debounce_ms →
        (btnStep cfg st true now).2 = [⟨cfg.id, BtnEventType.down, 0, now⟩] ∧
        (btnStep cfg st true now).1.suppressed = false ∧
        (btnStep cfg st true now).1.logic_state = true) :=
  ⟨btnStep_suppressed, runTrace_suppressed_hold, suppress_is_pressed_false,
   btnStep_fresh_press⟩

/-- Witness for C8: each conjunct applied at a concrete configuration, a
concrete suppressed mid-hold state, and concrete poll times. -/
theorem c8_suppress_witness :
    (((btnStep cfgC8 stC8 true 400000).2 = [] ∧
       (btnStep cfgC8 stC8 true 400000).1.suppressed = true) ∨
     ((btnStep cfgC8 stC8 true 400000).2 =
        [⟨cfgC8.id, BtnEventType.down, 0, 400000⟩] ∧
       (btnStep cfgC8 stC8 true 400000).1.suppressed = false ∧
       stC8.logic_state = false ∧
       (btnStep cfgC8 stC8 true 400000).1.logic_state = true)) ∧
    ((runTrace cfgC8 stC8 [(350000, true), (400000, true)]).2 = [] ∧
      (runTrace cfgC8 stC8 [(350000, true), (400000, true)]).1.suppressed = true ∧
      (runTrace cfgC8 stC8 [(350000, true), (400000, true)]).1.logic_state = true) ∧
    (btn_is_pressed
      (btn_suppress_events
        ⟨[⟨some cfgC8, some ⟨true, true, false, 0, 1000, 0, 1000, 0, 0⟩⟩],
         freshRing 4 (fun _ => default)⟩ 2) 2 = false) ∧
    ((btnStep cfgC8 ⟨false, true, true, 0, 0, 5, 0, 0, 0⟩ true 2000).2 =
       [⟨cfgC8.id, BtnEventType.down, 0, 2000⟩] ∧
     (btnStep cfgC8 ⟨false, true, true, 0, 0, 5, 0, 0, 0⟩ true 2000).1.suppressed = false ∧
     (btnStep cfgC8 ⟨false, true, true, 0, 0, 5, 0, 0, 0⟩ true 2000).1.logic_state = true) :=
  ⟨c8_suppress_thm.1 cfgC8 stC8 true 400000 rfl rfl,
   c8_suppress_thm.2.1 cfgC8 stC8 [(350000, true), (400000, true)] rfl rfl
     (by decide),
   c8_suppress_thm.2.2.1 [⟨some cfgC8, some ⟨true, true, false, 0, 1000, 0, 1000, 0, 0⟩⟩]
     (freshRing 4 (fun _ => default)) 2,
   c8_suppress_thm.2.2.2 cfgC8 ⟨false, true, true, 0, 0, 5, 0, 0, 0⟩ 2000
     rfl rfl rfl rfl (by decide)⟩

theorem longPhase_start_eq (cfg : BtnConfig) (st : BtnState) (now : Nat)
    (h : st.click_count ≠ LONG_PRESS_ACTIVE) (hs : st.suppressed = false)
    (hcb : cfg.callback = none) :
    longPhase cfg st now =
      ({ st with click_count := LONG_PRESS_ACTIVE, hold_repeat_count := 0,
                 last_repeat_time := now },
       [⟨cfg.id, BtnEventType.longStart, 0, now⟩]) := by
  unfold longPhase
  dsimp only
  rw [if_pos h]
  dsimp only
  split_ifs with h1 h2 h3
  · exact absurd h2 (by rw [u64sub_self]; exact Nat.not_lt_zero _)
  · exact absurd h2 (by rw [u64sub_self]; exact Nat.not_lt_zero _)
  · rw [emitList_plain cfg _ BtnEventType.longStart 0 now (by simpa using hs) hcb]
  · rw [emitList_plain cfg _ BtnEventType.longStart 0 now (by simpa using hs) hcb]

theorem longPhase_marked (cfg : BtnConfig) (st : BtnState) (now : Nat)
    (h : st.click_count = LONG_PRESS_ACTIVE) :
    (longPhase cfg st now).1.click_count = LONG_PRESS_ACTIVE ∧
    (longPhase cfg st now).1.logic_state = st.logic_state ∧
    (longPhase cfg st now).1.raw_state = st.raw_state ∧
    (longPhase cfg st now).1.suppressed = st.suppressed ∧
    (longPhase cfg st now).1.state_start_time = st.state_start_time ∧
    (longPhase cfg st now).1.last_debounce_time = st.last_debounce_time ∧
    ∀ e ∈ (longPhase cfg st now).2, e.type = BtnEventType.longHold := by
  unfold longPhase
  dsimp only
  simp only [h, ne_eq, not_true_eq_false, if_false, ite_false]
  split_ifs <;>
    refine ⟨by simp [h], by simp, by simp, by simp, by simp, by simp, ?_⟩ <;>
    intro e he <;>
    simp only [List.nil_append, List.mem_append, List.not_mem_nil, false_or] at he <;>
    first
      | exact absurd he (List.not_mem_nil e)
      | exact emitList_type _ _ _ _ _ e he

theorem runTrace_marked_hold (cfg : BtnConfig) (st : BtnState)
    (polls : List (Nat × Bool))
    (hck : st.click_count = LONG_PRESS_ACTIVE)
    (hlog : st.logic_state = true) (hraw : st.raw_state = true)
    (hr : ∀ p ∈ polls, (if cfg.active_low then !p.2 else p.2) = true) :
    (runTrace cfg st polls).1.click_count = LONG_PRESS_ACTIVE ∧
    (runTrace cfg st polls).1.logic_state = true ∧
    (runTrace cfg st polls).1.raw_state = true ∧
    (runTrace cfg st polls).1.suppressed = st.suppressed ∧
    (runTrace cfg st polls).1.state_start_time = st.state_start_time ∧
    ∀ e ∈ (runTrace cfg st polls).2, e.type = BtnEventType.longHold := by
  induction polls generalizing st with
  | nil =>
    exact ⟨hck, hlog, hraw, rfl, rfl,
           fun e he => absurd he (List.not_mem_nil e)⟩
  | cons hd tl ih =>
    obtain ⟨t, r⟩ := hd
    have hr0 : (if cfg.active_low then !r else r) = true := hr (t, r) (by simp)
    have hstep : (btnStep cfg st r t).1.click_count = LONG_PRESS_ACTIVE ∧
        (btnStep cfg st r t).1.logic_state = true ∧
        (btnStep cfg st r t).1.raw_state = true ∧
        (btnStep cfg st r t).1.suppressed = st.suppressed ∧
        (btnStep cfg st r t).1.state_start_time = st.state_start_time ∧
        ∀ e ∈ (btnStep cfg st r t).2, e.type = BtnEventType.longHold := by
      unfold btnStep
      dsimp only
      rw [hr0]
      have hdr : debRecord st true t = st := by
        unfold debRecord
        rw [if_neg (by simp [hraw])]
      rw [hdr, edgePhase_skip2 cfg st true t (by rw [hlog])]
      unfold servicePhase
      rw [hlog]
      dsimp only
      split_ifs with h9 hhold
      · obtain ⟨m1, m2, m3, m4, m5, m6, m7⟩ := longPhase_marked cfg st t hck
        refine ⟨m1, by rw [m2, hlog], by rw [m3, hraw], m4, m5, ?_⟩
        intro e he
        simp only [List.nil_append] at he
        exact m7 e he
      · exact ⟨hck, hlog, hraw, rfl, rfl,
               fun e he => absurd he (List.not_mem_nil e)⟩
      · exact absurd rfl h9
    obtain ⟨s1, s2, s3, s4, s5, s6⟩ := hstep
    obtain ⟨i1, i2, i3, i4, i5, i6⟩ := ih (btnStep cfg st r t).1 s1 s2 s3
      (fun p hp => hr p (List.mem_cons_of_mem _ hp))
    refine ⟨i1, i2, i3, i4.trans s4, i5.trans s5, ?_⟩
    intro e he
    have he2 : e ∈ (btnStep cfg st r t).2 ++
        (runTrace cfg (btnStep cfg st r t).1 tl).2 := he
    rcases List.mem_append.mp he2 with h | h
    · exact s6 e h
    · exact i6 e h

theorem idlePhase_zero_eq (cfg : BtnConfig) (st : BtnState) (now : Nat)
    (h : st.click_count = 0) : idlePhase cfg st now = (st, []) := by
  simp [idlePhase, h, LONG_PRESS_ACTIVE]

theorem btnStep_idle_zero (cfg : BtnConfig) (st : BtnState) (now : Nat)
    (hal : cfg.active_low = false) (hlog : st.logic_state = false)
    (hraw : st.raw_state = false) (hck : st.click_count = 0) :
    btnStep cfg st false now = (st, []) := by
  have hr : (if cfg.active_low then !false else false) = false := by
    rw [hal]
    rfl
  unfold btnStep
  dsimp only
  rw [hr]
  have hdr : debRecord st false now = st := by
    unfold debRecord
    rw [if_neg (by simp [hraw])]
  rw [hdr, edgePhase_skip2 cfg st false now (by rw [hlog])]
  unfold servicePhase
  rw [hlog]
  dsimp only
  rw [idlePhase_zero_eq cfg st now hck]
  simp

theorem runTrace_idle_zero (cfg : BtnConfig) (st : BtnState)
    (times : List Nat)
    (hal : cfg.active_low = false) (hlog : st.logic_state = false)
    (hraw : st.raw_state = false) (hck : st.click_count = 0) :
    runTrace cfg st (times.map (fun t => (t, false))) = (st, []) := by
  induction times with
  | nil => rfl
  | cons t ts ih =>
    show runTrace cfg st ((t, false) :: ts.map (fun t => (t, false))) = (st, [])
    unfold runTrace
    rw [btnStep_idle_zero cfg st t hal hlog hraw hck]
    dsimp only
    rw [ih]
    rfl


theorem servicePhase_idle_eq (cfg : BtnConfig) (st : BtnState) (now : Nat)
    (hlog : st.logic_state = false) (hck : st.click_count = 0) :
    servicePhase cfg st now = (st, []) := by
  unfold servicePhase
  rw [hlog]
  rw [idlePhase_zero_eq cfg st now hck]
  simp

theorem runTrace_cons (cfg : BtnConfig) (st : BtnState) (t : Nat) (r : Bool)
    (ps : List (Nat × Bool)) :
    runTrace cfg st ((t, r) :: ps) =
      ((runTrace cfg (btnStep cfg st r t).1 ps).1,
       (btnStep cfg st r t).2 ++ (runTrace cfg (btnStep cfg st r t).1 ps).2) :=
  rfl

/-- Number of events of a given type in a list. -/
def countType (ty : BtnEventType) (evs : List BtnEvent) : Nat :=
  (evs.filter (fun e => e.type == ty)).length

theorem countType_append (ty : BtnEventType) (l1 l2 : List BtnEvent) :
    countType ty (l1 ++ l2) = countType ty l1 + countType ty l2 := by
  unfold countType
  rw [List.filter_append, List.length_append]

theorem countType_nil_of (ty : BtnEventType) (l : List BtnEvent)
    (h : ∀ e ∈ l, e.type ≠ ty) : countType ty l = 0 := by
  unfold countType
  rw [List.filter_eq_nil_iff.mpr]
  · rfl
  · intro e he
    simp [h e he]

theorem servicePhase_marked (cfg : BtnConfig) (st : BtnState) (now : Nat)
    (hck : st.click_count = LONG_PRESS_ACTIVE) (hlog : st.logic_state = true) :
    (servicePhase cfg st now).1.click_count = LONG_PRESS_ACTIVE ∧
    (servicePhase cfg st now).1.logic_state = true ∧
    (servicePhase cfg st now).1.raw_state = st.raw_state ∧
    (servicePhase cfg st now).1.suppressed = st.suppressed ∧
    (servicePhase cfg st now).1.state_start_time = st.state_start_time ∧
    (servicePhase cfg st now).1.last_debounce_time = st.last_debounce_time ∧
    ∀ e ∈ (servicePhase cfg st now).2, e.type = BtnEventType.longHold := by
  unfold servicePhase
  rw [hlog]
  split_ifs with h9 hhold
  · obtain ⟨m1, m2, m3, m4, m5, m6, m7⟩ := longPhase_marked cfg st now hck
    exact ⟨m1, by rw [m2]; exact hlog, m3, m4, m5, m6, m7⟩
  · exact ⟨hck, hlog, rfl, rfl, rfl, rfl,
           fun e he => absurd he (List.not_mem_nil e)⟩
  · exact absurd rfl h9

theorem btnStep_release_record (cfg : BtnConfig) (st : BtnState) (b : Nat)
    (hal : cfg.active_low = false) (hraw : st.raw_state = true)
    (hlog : st.logic_state = true) (hck : st.click_count = LONG_PRESS_ACTIVE) :
    (btnStep cfg st false b).1.click_count = LONG_PRESS_ACTIVE ∧
    (btnStep cfg st false b).1.logic_state = true ∧
    (btnStep cfg st false b).1.raw_state = false ∧
    (btnStep cfg st false b).1.suppressed = st.suppressed ∧
    (btnStep cfg st false b).1.state_start_time = st.state_start_time ∧
    (btnStep cfg st false b).1.last_debounce_time = b ∧
    ∀ e ∈ (btnStep cfg st false b).2, e.type = BtnEventType.longHold := by
  have hr : (if cfg.active_low then !false else false) = false := by
    rw [hal]
    rfl
  unfold btnStep
  dsimp only
  rw [hr]
  have hdr : debRecord st false b =
      { st with last_debounce_time := b, raw_state := false } := by
    unfold debRecord
    rw [if_pos (by simp [hraw])]
  rw [hdr, edgePhase_skip1 cfg _ false b (by simp [u64sub_self])]
  dsimp only
  obtain ⟨m1, m2, m3, m4, m5, m6, m7⟩ :=
    servicePhase_marked cfg
      { st with last_debounce_time := b, raw_state := false } b hck hlog
  refine ⟨m1, m2, m3, m4, m5, m6, ?_⟩
  intro e he
  simp only [List.nil_append] at he
  exact m7 e he

theorem edgePhase_release_long_eq (cfg : BtnConfig) (st : BtnState) (now : Nat)
    (hdeb : u64sub now st.last_debounce_time > msToUs cfg.debounce_ms)
    (hlog : st.logic_state = true) (hsup : st.suppressed = false)
    (hlen : ¬ u64sub now st.state_start_time < msToUs cfg.long_press_ms)
    (hcb : cfg.callback = none) :
    edgePhase cfg st false now =
      ({ st with logic_state := false, click_count := 0 },
       [⟨cfg.id, BtnEventType.up, 0, now⟩]) := by
  unfold edgePhase
  rw [if_pos hdeb]
  simp [hlog, hsup, hlen, emitList, hcb]

theorem btnStep_release_edge (cfg : BtnConfig) (st : BtnState) (b2 : Nat)
    (hal : cfg.active_low = false) (hcb : cfg.callback = none)
    (hraw : st.raw_state = false) (hlog : st.logic_state = true)
    (hsup : st.suppressed = false)
    (hdeb : u64sub b2 st.last_debounce_time > msToUs cfg.debounce_ms)
    (hlen : ¬ u64sub b2 st.state_start_time < msToUs cfg.long_press_ms) :
    (btnStep cfg st false b2).2 = [⟨cfg.id, BtnEventType.up, 0, b2⟩] ∧
    (btnStep cfg st false b2).1.click_count = 0 ∧
    (btnStep cfg st false b2).1.logic_state = false ∧
    (btnStep cfg st false b2).1.raw_state = false := by
  have hr : (if cfg.active_low then !false else false) = false := by
    rw [hal]
    rfl
  unfold btnStep
  dsimp only
  rw [hr]
  have hdr : debRecord st false b2 = st := by
    unfold debRecord
    rw [if_neg (by simp [hraw])]
  rw [hdr, edgePhase_release_long_eq cfg st b2 hdeb hlog hsup hlen hcb]
  dsimp only
  rw [servicePhase_idle_eq cfg _ b2 rfl rfl]
  exact ⟨by simp, rfl, rfl, hraw⟩


theorem countType_singleton (ty : BtnEventType) (e : BtnEvent) :
    countType ty [e] = if e.type = ty then 1 else 0 := by
  unfold countType
  by_cases h : e.type = ty
  · simp [List.filter, h]
  · have hb : (e.type == ty) = false := beq_eq_false_iff_ne.mpr h
    simp [List.filter, hb, h]

theorem c6_stageA (cfg : BtnConfig) (hal : cfg.active_low = false) :
    btnStep cfg BtnState.init true 0 =
      (⟨false, true, false, 0, 0, 0, 0, 0, 0⟩, []) := by
  have hr : (if cfg.active_low then !true else true) = true := by
    rw [hal]
    rfl
  unfold btnStep
  dsimp only
  rw [hr]
  have hdr : debRecord BtnState.init true 0 =
      ⟨false, true, false, 0, 0, 0, 0, 0, 0⟩ := by
    unfold debRecord BtnState.init
    simp
  rw [hdr, edgePhase_skip1 cfg _ true 0 (by simp [u64sub_self])]
  dsimp only
  rw [servicePhase_idle_eq cfg _ 0 rfl rfl]
  rfl

theorem c6_stageB (cfg : BtnConfig) (hal : cfg.active_low = false)
    (hcb : cfg.callback = none)
    (hU : msToUs cfg.debounce_ms + 1 < 18446744073709551616) :
    btnStep cfg ⟨false, true, false, 0, 0, 0, 0, 0, 0⟩ true
        (msToUs cfg.debounce_ms + 1) =
      (⟨true, true, false, 0, msToUs cfg.debounce_ms + 1, 0,
        msToUs cfg.debounce_ms + 1, 0, 0⟩,
       [⟨cfg.id, BtnEventType.down, 0, msToUs cfg.debounce_ms + 1⟩]) := by
  have hr : (if cfg.active_low then !true else true) = true := by
    rw [hal]
    rfl
  unfold btnStep
  dsimp only
  rw [hr]
  have hdr : debRecord ⟨false, true, false, 0, 0, 0, 0, 0, 0⟩ true
      (msToUs cfg.debounce_ms + 1) = ⟨false, true, false, 0, 0, 0, 0, 0, 0⟩ := by
    unfold debRecord
    simp
  rw [hdr]
  have hdeb : u64sub (msToUs cfg.debounce_ms + 1) 0 > msToUs cfg.debounce_ms := by
    rw [u64sub_eq (Nat.zero_le _) (by omega)]
    omega
  rw [edgePhase_press_eq cfg ⟨false, true, false, 0, 0, 0, 0, 0, 0⟩
      (msToUs cfg.debounce_ms + 1) hdeb rfl]
  dsimp only
  rw [servicePhase_after_press cfg _ (msToUs cfg.debounce_ms + 1) rfl rfl]
  dsimp only
  rw [emitList_plain cfg _ BtnEventType.down 0 (msToUs cfg.debounce_ms + 1)
      rfl hcb]
  rfl

theorem c6_stageC (cfg : BtnConfig) (a : Nat) (hal : cfg.active_low = false)
    (hcb : cfg.callback = none)
    (ha1 : msToUs cfg.debounce_ms + 1 ≤ a) (ha2 : a < 18446744073709551616)
    (ha3 : a - (msToUs cfg.debounce_ms + 1) > msToUs cfg.long_press_ms) :
    btnStep cfg ⟨true, true, false, 0, msToUs cfg.debounce_ms + 1, 0,
        msToUs cfg.debounce_ms + 1, 0, 0⟩ true a =
      (⟨true, true, false, 0, msToUs cfg.debounce_ms + 1, 0, a,
        LONG_PRESS_ACTIVE, 0⟩,
       [⟨cfg.id, BtnEventType.longStart, 0, a⟩]) := by
  have hr : (if cfg.active_low then !true else true) = true := by
    rw [hal]
    rfl
  unfold btnStep
  dsimp only
  rw [hr]
  have hdr : debRecord ⟨true, true, false, 0, msToUs cfg.debounce_ms + 1, 0,
      msToUs cfg.debounce_ms + 1, 0, 0⟩ true a =
      ⟨true, true, false, 0, msToUs cfg.debounce_ms + 1, 0,
       msToUs cfg.debounce_ms + 1, 0, 0⟩ := by
    unfold debRecord
    simp
  rw [hdr, edgePhase_skip2 cfg _ true a rfl]
  dsimp only
  unfold servicePhase
  dsimp only
  have hhold : u64sub a (msToUs cfg.debounce_ms + 1) >
      msToUs cfg.long_press_ms := by
    rw [u64sub_eq ha1 (by omega)]
    exact ha3
  rw [if_pos rfl, if_pos hhold]
  rw [longPhase_start_eq cfg _ a (by simp [LONG_PRESS_ACTIVE]) rfl hcb]
  rfl


theorem countType_nil (ty : BtnEventType) : countType ty [] = 0 := rfl

/-- Poll trace for C6: press at t = 0 (edge at debounce+1), one poll at `a`
crossing the long-press threshold, an arbitrary block of further held polls,
raw release at `b` (edge at `b2`), then arbitrary silent polls. -/
def c6Trace (cfg : BtnConfig) (a : Nat) (holdTimes : List Nat) (b b2 : Nat)
    (silenceTimes : List Nat) : List (Nat × Bool) :=
  (0, true) :: (msToUs cfg.debounce_ms + 1, true) :: (a, true) ::
    (holdTimes.map (fun t => (t, true)) ++
      (b, false) :: (b2, false) :: silenceTimes.map (fun t => (t, false)))

/-- C6: a single hold that is observed past the long-press threshold emits
exactly one LongStart, and no Click event is ever attributed to it,
regardless of how long the button is subsequently held (`holdTimes`), when
the release happens (`b`, `b2`), or how long the idle period afterwards is
(`silenceTimes`). -/
theorem c6_long_exclusive_thm (cfg : BtnConfig) (a b b2 : Nat)
    (holdTimes silenceTimes : List Nat)
    (hal : cfg.active_low = false) (hcb : cfg.callback = none)
    (hU : msToUs cfg.debounce_ms + 1 < 18446744073709551616)
    (ha1 : msToUs cfg.debounce_ms + 1 ≤ a) (ha2 : a < 18446744073709551616)
    (ha3 : a - (msToUs cfg.debounce_ms + 1) > msToUs cfg.long_press_ms)
    (hrel1 : u64sub b2 b > msToUs cfg.debounce_ms)
    (hrel2 : ¬ u64sub b2 (msToUs cfg.debounce_ms + 1) <
        msToUs cfg.long_press_ms) :
    countType BtnEventType.longStart
      (runTrace cfg BtnState.init (c6Trace cfg a holdTimes b b2 silenceTimes)).2 = 1 ∧
    countType BtnEventType.click
      (runTrace cfg BtnState.init (c6Trace cfg a holdTimes b b2 silenceTimes)).2 = 0 := by
  unfold c6Trace
  rw [runTrace_cons, c6_stageA cfg hal]
  dsimp only
  rw [runTrace_cons, c6_stageB cfg hal hcb hU]
  dsimp only
  rw [runTrace_cons, c6_stageC cfg a hal hcb ha1 ha2 ha3]
  dsimp only
  rw [runTrace_append_snd]
  obtain ⟨d1, d2, d3, d4, d5, d6⟩ := runTrace_marked_hold cfg
    ⟨true, true, false, 0, msToUs cfg.debounce_ms + 1, 0, a,
     LONG_PRESS_ACTIVE, 0⟩
    (holdTimes.map (fun t => (t, true))) rfl rfl rfl
    (by
      intro p hp
      rcases List.mem_map.mp hp with ⟨t, ht, rfl⟩
      rw [hal]
      rfl)
  rw [runTrace_cons]
  obtain ⟨e1, e2, e3, e4, e5, e6, e7⟩ := btnStep_release_record cfg
    (runTrace cfg
      ⟨true, true, false, 0, msToUs cfg.debounce_ms + 1, 0, a,
       LONG_PRESS_ACTIVE, 0⟩
      (holdTimes.map (fun t => (t, true)))).1 b hal d3 d2 d1
  rw [runTrace_cons]
  obtain ⟨f1, f2, f3, f4⟩ := btnStep_release_edge cfg
    (btnStep cfg
      (runTrace cfg
        ⟨true, true, false, 0, msToUs cfg.debounce_ms + 1, 0, a,
         LONG_PRESS_ACTIVE, 0⟩
        (holdTimes.map (fun t => (t, true)))).1 false b).1 b2 hal hcb e3 e2
    (e4.trans d4) (by rw [e6]; exact hrel1) (by rw [e5, d5]; exact hrel2)
  rw [f1]
  rw [runTrace_idle_zero cfg _ silenceTimes hal f3 f4 f2]
  dsimp only
  have hD1 : countType BtnEventType.longStart
      (runTrace cfg
        ⟨true, true, false, 0, msToUs cfg.debounce_ms + 1, 0, a,
         LONG_PRESS_ACTIVE, 0⟩
        (holdTimes.map (fun t => (t, true)))).2 = 0 :=
    countType_nil_of _ _ (fun e he => by rw [d6 e he]; simp)
  have hD2 : countType BtnEventType.click
      (runTrace cfg
        ⟨true, true, false, 0, msToUs cfg.debounce_ms + 1, 0, a,
         LONG_PRESS_ACTIVE, 0⟩
        (holdTimes.map (fun t => (t, true)))).2 = 0 :=
    countType_nil_of _ _ (fun e he => by rw [d6 e he]; simp)
  have hE1 : countType BtnEventType.longStart
      (btnStep cfg
        (runTrace cfg
          ⟨true, true, false, 0, msToUs cfg.debounce_ms + 1, 0, a,
           LONG_PRESS_ACTIVE, 0⟩
          (holdTimes.map (fun t => (t, true)))).1 false b).2 = 0 :=
    countType_nil_of _ _ (fun e he => by rw [e7 e he]; simp)
  have hE2 : countType BtnEventType.click
      (btnStep cfg
        (runTrace cfg
          ⟨true, true, false, 0, msToUs cfg.debounce_ms + 1, 0, a,
           LONG_PRESS_ACTIVE, 0⟩
          (holdTimes.map (fun t => (t, true)))).1 false b).2 = 0 :=
    countType_nil_of _ _ (fun e he => by rw [e7 e he]; simp)
  constructor
  · simp only [countType_append, countType_singleton, countType_nil,
               List.nil_append, hD1, hE1]
    simp
  · simp only [countType_append, countType_singleton, countType_nil,
               List.nil_append, hD2, hE2]
    simp


/-- Configuration for the C6 witness: 1 ms debounce, 300 ms long press,
100 ms auto-repeat. -/
def cfgC6 : BtnConfig := ⟨3, false, true, none, 1, 200, 300, 100⟩

/-- Witness for C6: hold from t = 0 crossing the 300 ms threshold at
t = 302 ms, held polls to 450 ms, released with edge at 501.002 ms, idle
poll at 700 ms: exactly one LongStart, no Click. -/
theorem c6_long_exclusive_witness :
    countType BtnEventType.longStart
      (runTrace cfgC6 BtnState.init
        (c6Trace cfgC6 302000 [350000, 400000, 450000] 500000 501002
          [700000])).2 = 1 ∧
    countType BtnEventType.click
      (runTrace cfgC6 BtnState.init
        (c6Trace cfgC6 302000 [350000, 400000, 450000] 500000 501002
          [700000])).2 = 0 :=
  c6_long_exclusive_thm cfgC6 302000 500000 501002
    [350000, 400000, 450000] [700000] rfl rfl (by decide) (by decide)
    (by decide) (by decide) (by decide) (by decide)


theorem longPhase_marked_nofire (cfg : BtnConfig) (st : BtnState) (now : Nat)
    (hck : st.click_count = LONG_PRESS_ACTIVE)
    (hnf : ¬ u64sub now st.last_repeat_time > msToUs cfg.repeat_period_ms) :
    longPhase cfg st now = (st, []) := by
  unfold longPhase
  dsimp only
  simp only [hck, ne_eq, not_true_eq_false, if_false, ite_false]
  by_cases h1 : cfg.repeat_period_ms > 0
  · rw [if_pos h1, if_neg hnf]
  · rw [if_neg h1]

theorem longPhase_marked_fire (cfg : BtnConfig) (st : BtnState) (now : Nat)
    (hcb : cfg.callback = none) (hsup : st.suppressed = false)
    (hck : st.click_count = LONG_PRESS_ACTIVE)
    (hR : 0 < cfg.repeat_period_ms)
    (hf : u64sub now st.last_repeat_time > msToUs cfg.repeat_period_ms) :
    longPhase cfg st now =
      ({ st with
          hold_repeat_count :=
            if st.hold_repeat_count < 255 then st.hold_repeat_count + 1
            else st.hold_repeat_count,
          last_repeat_time := now },
       [⟨cfg.id, BtnEventType.longHold,
         (if st.hold_repeat_count < 255 then st.hold_repeat_count + 1
          else st.hold_repeat_count), now⟩]) := by
  unfold longPhase
  dsimp only
  simp only [hck, ne_eq, not_true_eq_false, if_false, ite_false]
  rw [if_pos hR, if_pos hf]
  by_cases h255 : st.hold_repeat_count < 255
  · rw [if_pos h255]
    rw [emitList_plain cfg _ BtnEventType.longHold _ now (by simpa using hsup) hcb]
    simp [hck, h255]
  · rw [if_neg h255]
    rw [emitList_plain cfg _ BtnEventType.longHold _ now (by simpa using hsup) hcb]
    simp [hck, h255]

theorem btnStep_held_nofire (cfg : BtnConfig) (st : BtnState) (now : Nat)
    (hal : cfg.active_low = false) (hlog : st.logic_state = true)
    (hraw : st.raw_state = true)
    (hck : st.click_count = LONG_PRESS_ACTIVE)
    (hnf : ¬ u64sub now st.last_repeat_time > msToUs cfg.repeat_period_ms) :
    btnStep cfg st true now = (st, []) := by
  have hr : (if cfg.active_low then !true else true) = true := by
    rw [hal]
    rfl
  unfold btnStep
  dsimp only
  rw [hr]
  have hdr : debRecord st true now = st := by
    unfold debRecord
    rw [if_neg (by simp [hraw])]
  rw [hdr, edgePhase_skip2 cfg st true now hlog]
  dsimp only
  unfold servicePhase
  rw [hlog]
  rw [if_pos rfl]
  split_ifs with hhold
  · rw [longPhase_marked_nofire cfg st now hck hnf]
    rfl
  · rfl

theorem btnStep_held_fire (cfg : BtnConfig) (st : BtnState) (now : Nat)
    (hal : cfg.active_low = false) (hcb : cfg.callback = none)
    (hlog : st.logic_state = true) (hraw : st.raw_state = true)
    (hsup : st.suppressed = false)
    (hck : st.click_count = LONG_PRESS_ACTIVE)
    (hhold : u64sub now st.state_start_time > msToUs cfg.long_press_ms)
    (hR : 0 < cfg.repeat_period_ms)
    (hf : u64sub now st.last_repeat_time > msToUs cfg.repeat_period_ms) :
    btnStep cfg st true now =
      ({ st with
          hold_repeat_count :=
            if st.hold_repeat_count < 255 then st.hold_repeat_count + 1
            else st.hold_repeat_count,
          last_repeat_time := now },
       [⟨cfg.id, BtnEventType.longHold,
         (if st.hold_repeat_count < 255 then st.hold_repeat_count + 1
          else st.hold_repeat_count), now⟩]) := by
  have hr : (if cfg.active_low then !true else true) = true := by
    rw [hal]
    rfl
  unfold btnStep
  dsimp only
  rw [hr]
  have hdr : debRecord st true now = st := by
    unfold debRecord
    rw [if_neg (by simp [hraw])]
  rw [hdr, edgePhase_skip2 cfg st true now hlog]
  dsimp only
  unfold servicePhase
  rw [hlog]
  rw [if_pos rfl, if_pos hhold]
  rw [longPhase_marked_fire cfg st now hcb hsup hck hR hf]
  simp [hlog]

theorem sat_inc_min (mm : Nat) :
    (if min mm 255 < 255 then min mm 255 + 1 else min mm 255) =
      min (mm + 1) 255 := by
  split_ifs with h <;> omega

theorem runTrace_singleton (cfg : BtnConfig) (st : BtnState) (t : Nat)
    (r : Bool) :
    runTrace cfg st [(t, r)] = btnStep cfg st r t := by
  rw [runTrace_cons]
  simp [runTrace]

/-- Poll times a + dt, a + 2 dt, ..., a + k dt, with the raw input held
high throughout. -/
def holdPolls (a dt : Nat) : Nat → List (Nat × Bool)
  | 0 => []
  | k+1 => holdPolls a dt k ++ [(a + (k+1)*dt, true)]

theorem heldRepeatInv (cfg : BtnConfig) (dt a s dbt lr0 q P : Nat)
    (hal : cfg.active_low = false) (hcb : cfg.callback = none)
    (hR : 0 < cfg.repeat_period_ms) (hdt : 0 < dt)
    (hq : q = msToUs cfg.repeat_period_ms / dt)
    (hP : P = dt * (q + 1))
    (hss : s ≤ a)
    (hcross : msToUs cfg.long_press_ms < a - s) :
    ∀ k m r : Nat, k = (q+1)*m + r → r < q+1 ->
      a + k*dt < 18446744073709551616 ->
      runTrace cfg (BtnState.mk true true false dbt s lr0 a LONG_PRESS_ACTIVE 0)
          (holdPolls a dt k) =
        (BtnState.mk true true false dbt s lr0 (a + m*P) LONG_PRESS_ACTIVE
           (min m 255),
         (List.range m).map
           (fun i => BtnEvent.mk cfg.id BtnEventType.longHold (min (i+1) 255)
                       (a + (i+1)*P))) := by
  intro k
  induction k with
  | zero =>
    intro m r hk hr hbound
    have hm : m = 0 := by
      rcases Nat.eq_zero_or_pos m with h | h
      · exact h
      · exfalso
        have h2 : q + 1 ≤ (q+1)*m := Nat.le_mul_of_pos_right _ h
        omega
    subst hm
    simp [holdPolls, runTrace]
  | succ k ih =>
    intro m r hk hr hbound
    have hbk : a + k*dt < 18446744073709551616 := by
      have h1 : k*dt ≤ (k+1)*dt := Nat.mul_le_mul_right _ (Nat.le_succ k)
      omega
    have hqd : q*dt ≤ msToUs cfg.repeat_period_ms := by
      rw [hq]
      exact Nat.div_mul_le_self _ _
    have hRq : msToUs cfg.repeat_period_ms < (q+1)*dt := by
      have h1 : msToUs cfg.repeat_period_ms / dt < q + 1 := by omega
      exact (Nat.div_lt_iff_lt_mul hdt).mp h1
    rcases Nat.eq_zero_or_pos r with hr0 | hrpos
    · -- the pass at a + (k+1) dt crosses the repeat window: a LongHold fires
      subst hr0
      rcases Nat.eq_zero_or_pos m with hm0 | hmpos
      · subst hm0
        omega
      obtain ⟨mp, rfl⟩ : ∃ mp, m = mp + 1 := ⟨m - 1, by omega⟩
      have hmul : (q+1)*(mp+1) = (q+1)*mp + (q+1) := by ring
      have hk1 : k = (q+1)*mp + q := by omega
      have IH := ih mp q hk1 (Nat.lt_succ_self q) hbk
      rw [holdPolls, runTrace_append, IH, runTrace_singleton]
      dsimp only
      have hk2 : k + 1 = (q+1)*(mp+1) := by omega
      have hkd : (k+1)*dt = mp*P + (q+1)*dt := by
        rw [hk2, hP]
        ring
      have hlrle : a + mp*P ≤ a + (k+1)*dt := by omega
      have hfire : u64sub (a + (k+1)*dt) (a + mp*P) >
          msToUs cfg.repeat_period_ms := by
        rw [u64sub_eq hlrle (by omega)]
        omega
      have hhold : u64sub (a + (k+1)*dt) s > msToUs cfg.long_press_ms := by
        rw [u64sub_eq (by omega) (by omega)]
        omega
      rw [btnStep_held_fire cfg
            (BtnState.mk true true false dbt s lr0 (a + mp*P)
              LONG_PRESS_ACTIVE (min mp 255))
            (a + (k+1)*dt) hal hcb rfl rfl rfl rfl hhold hR hfire]
      dsimp only
      have h4 : (mp+1)*P = mp*P + (q+1)*dt := by
        rw [hP]
        ring
      have hnow : a + (k+1)*dt = a + (mp+1)*P := by omega
      rw [sat_inc_min mp, hnow, List.range_succ, List.map_append]
      simp
    · -- the pass at a + (k+1) dt is still inside the repeat window: no event
      obtain ⟨rp, rfl⟩ : ∃ rp, r = rp + 1 := ⟨r - 1, by omega⟩
      have hk1 : k = (q+1)*m + rp := by omega
      have IH := ih m rp hk1 (by omega) hbk
      rw [holdPolls, runTrace_append, IH, runTrace_singleton]
      dsimp only
      have hkd : (k+1)*dt = m*P + (rp+1)*dt := by
        have h3 : k + 1 = (q+1)*m + (rp+1) := hk
        rw [h3, hP]
        ring
      have hr1d : (rp+1)*dt ≤ q*dt := Nat.mul_le_mul_right _ (by omega)
      have hnf : ¬ (u64sub (a + (k+1)*dt) (a + m*P) >
          msToUs cfg.repeat_period_ms) := by
        rw [u64sub_eq (by omega) (by omega)]
        omega
      rw [btnStep_held_nofire cfg
            (BtnState.mk true true false dbt s lr0 (a + m*P)
              LONG_PRESS_ACTIVE (min m 255))
            (a + (k+1)*dt) hal rfl rfl rfl hnf]
      simp

/-- Configuration for the C5 analyses: id 1, active-high, no callback,
debounce 0 ms, click timeout 200 ms, long press 1 ms, auto-repeat 2 ms. -/
def cfgC5 : BtnConfig := ⟨1, false, true, none, 0, 200, 1, 2⟩

/-- C5 (amended): under a constant polling cadence of dt microseconds, a
button already holding the long-press marker emits LongHold events with an
effective period of dt * (floor(R_us / dt) + 1) microseconds, not R: after k
further polls the emitted events are exactly one LongHold per elapsed
effective period, with repeat indices 1, 2, 3, ... increasing by one each
time and saturating at 255, each stamped with its firing poll time. -/
theorem c5_repeat_amended (cfg : BtnConfig) (dt a s dbt lr0 k : Nat)
    (hal : cfg.active_low = false) (hcb : cfg.callback = none)
    (hR : 0 < cfg.repeat_period_ms) (hdt : 0 < dt)
    (hss : s ≤ a) (hcross : msToUs cfg.long_press_ms < a - s)
    (hbound : a + k*dt < 18446744073709551616) :
    (runTrace cfg (BtnState.mk true true false dbt s lr0 a LONG_PRESS_ACTIVE 0)
        (holdPolls a dt k)).2 =
      (List.range (k / (msToUs cfg.repeat_period_ms / dt + 1))).map
        (fun i => BtnEvent.mk cfg.id BtnEventType.longHold (min (i+1) 255)
          (a + (i+1)*(dt*(msToUs cfg.repeat_period_ms / dt + 1)))) := by
  have h := heldRepeatInv cfg dt a s dbt lr0
      (msToUs cfg.repeat_period_ms / dt)
      (dt*(msToUs cfg.repeat_period_ms / dt + 1))
      hal hcb hR hdt rfl rfl hss hcross k
      (k / (msToUs cfg.repeat_period_ms / dt + 1))
      (k % (msToUs cfg.repeat_period_ms / dt + 1))
      (Nat.div_add_mod k (msToUs cfg.repeat_period_ms / dt + 1)).symm
      (Nat.mod_lt _ (Nat.succ_pos _)) hbound
  rw [h]

/-- Witness for the amended C5: repeat period 2 ms polled every 500 us from
t = 1001 us with the marker set; 10 polls yield LongHolds indexed 1 and 2 at
the effective period 2500 us, not floor(5000 / 2000) = 2 at 2000 us spacing
(the count happens to agree here; the timestamps pin down the 2500 us
cadence). -/
theorem c5_repeat_witness :
    (runTrace cfgC5
        (BtnState.mk true true false 0 0 0 1001 LONG_PRESS_ACTIVE 0)
        (holdPolls 1001 500 10)).2 =
      (List.range (10 / (msToUs cfgC5.repeat_period_ms / 500 + 1))).map
        (fun i => BtnEvent.mk cfgC5.id BtnEventType.longHold (min (i+1) 255)
          (1001 + (i+1)*(500*(msToUs cfgC5.repeat_period_ms / 500 + 1)))) :=
  c5_repeat_amended cfgC5 500 1001 0 0 0 10 rfl rfl (by decide) (by decide)
    (by decide) (by decide) (by decide)

/-- Hold the button from t = 0 to t = 6000 us, polled every 500 us. -/
def c5Polls : List (Nat × Bool) :=
  [(0, true), (500, true), (1000, true), (1500, true), (2000, true),
   (2500, true), (3000, true), (3500, true), (4000, true), (4500, true),
   (5000, true), (5500, true), (6000, true)]

/-- Counterexample to C5 as stated: long press 1 ms, repeat 2 ms, polled
every 500 us.  LongStart fires at t = 2000 us; the button stays held through
t = 6000 us, i.e. for 4000 us past the threshold, so the claim predicts
floor(4000 / 2000) = 2 LongHolds.  The code requires now - anchor to
strictly exceed 2000 us, so repeats fire on the 2500 us grid (t = 4500 only)
and exactly one LongHold is emitted. -/
theorem c5_repeat_counterexample :
    (runTrace cfgC5 BtnState.init c5Polls).2.filter
        (fun e => e.type == BtnEventType.longStart) =
      [BtnEvent.mk 1 BtnEventType.longStart 0 2000] /\
    countType BtnEventType.longHold
        (runTrace cfgC5 BtnState.init c5Polls).2 = 1 /\
    ((6000 - 2000) / msToUs cfgC5.repeat_period_ms = 2 /\
     ¬ countType BtnEventType.longHold
         (runTrace cfgC5 BtnState.init c5Polls).2 =
       (6000 - 2000) / msToUs cfgC5.repeat_period_ms) := by
  decide


theorem mod_ne_of_lt_gap (S x y : Nat) (hxy : x < y) (hgap : y - x < S) :
    ¬ x % S = y % S := by
  intro h
  have hd : S ∣ y - x := (Nat.modEq_iff_dvd' (le_of_lt hxy)).mp h
  have hle : S ≤ y - x := Nat.le_of_dvd (by omega) hd
  omega

theorem push_event_not_full (c : RingCtx) (e : BtnEvent)
    (hq : c.hasQueue = true) (hs : 0 < c.queue_size)
    (hne : ¬ (c.head + 1) % c.queue_size = c.tail) :
    push_event c e =
      RingCtx.mk true
        (fun i => if i = c.head then e else c.buf i)
        c.queue_size ((c.head + 1) % c.queue_size) c.tail
        c.dropped_events := by
  unfold push_event
  rw [if_neg (by simp [hq]; omega)]
  dsimp only
  rw [if_neg hne]
  simp [hq]

theorem push_event_full (c : RingCtx) (e : BtnEvent)
    (hq : c.hasQueue = true) (hs : 0 < c.queue_size)
    (heq : (c.head + 1) % c.queue_size = c.tail) :
    push_event c e =
      RingCtx.mk true
        (fun i => if i = c.head then e else c.buf i)
        c.queue_size ((c.head + 1) % c.queue_size)
        ((c.tail + 1) % c.queue_size)
        (c.dropped_events + 1) := by
  unfold push_event
  rw [if_neg (by simp [hq]; omega)]
  dsimp only
  rw [if_pos heq]
  simp [hq]

theorem pushMany_inv (S : Nat) (hS : 1 ≤ S) (buf0 : Nat → BtnEvent) :
    ∀ l : List BtnEvent,
      (pushMany (freshRing S buf0) l).hasQueue = true ∧
      (pushMany (freshRing S buf0) l).queue_size = S ∧
      (pushMany (freshRing S buf0) l).head = l.length % S ∧
      (pushMany (freshRing S buf0) l).tail =
        (l.length - min l.length (S-1)) % S ∧
      (pushMany (freshRing S buf0) l).dropped_events =
        l.length - min l.length (S-1) ∧
      ∀ j, l.length - min l.length (S-1) ≤ j → j < l.length →
        (pushMany (freshRing S buf0) l).buf (j % S) = l.getD j default := by
  intro l
  induction l using List.reverseRecOn with
  | nil =>
    refine ⟨rfl, rfl, ?_, ?_, ?_, ?_⟩ <;> simp [pushMany, freshRing]
  | append_singleton l e ih =>
    obtain ⟨h1, h2, h3, h4, h5, h6⟩ := ih
    have hpm : pushMany (freshRing S buf0) (l ++ [e]) =
        push_event (pushMany (freshRing S buf0) l) e := by
      simp [pushMany, List.foldl_append]
    have hlen : (l ++ [e]).length = l.length + 1 := by simp
    rcases Nat.lt_or_ge l.length (S - 1) with hlt | hge
    · -- room left: no overwrite
      have hmin : min l.length (S-1) = l.length := Nat.min_eq_left (le_of_lt hlt)
      have hmin1 : min (l.length + 1) (S-1) = l.length + 1 :=
        Nat.min_eq_left (by omega)
      have hmodn : l.length % S = l.length := Nat.mod_eq_of_lt (by omega)
      have hmodn1 : (l.length + 1) % S = l.length + 1 := Nat.mod_eq_of_lt (by omega)
      have hne : ¬ ((pushMany (freshRing S buf0) l).head + 1) %
          (pushMany (freshRing S buf0) l).queue_size =
          (pushMany (freshRing S buf0) l).tail := by
        rw [h2, h3, h4, hmin, Nat.mod_add_mod, hmodn1, Nat.sub_self,
           Nat.zero_mod]
        omega
      have hstep := push_event_not_full (pushMany (freshRing S buf0) l) e
        h1 (by rw [h2]; omega) hne
      rw [hpm, hstep]
      refine ⟨rfl, ?_, ?_, ?_, ?_, ?_⟩
      · dsimp only
        exact h2
      · dsimp only
        rw [h2, h3, Nat.mod_add_mod, hlen]
      · dsimp only
        rw [h4, hlen, hmin, hmin1]
        simp
      · dsimp only
        rw [h5, hlen, hmin, hmin1]
        omega
      · intro j hj1 hj2
        rw [hlen] at hj2
        rcases Nat.lt_or_ge j l.length with hjl | hjl
        · have hjmod : j % S = j := Nat.mod_eq_of_lt (by omega)
          have hjne : ¬ j % S = (pushMany (freshRing S buf0) l).head := by
            rw [h3, hjmod, hmodn]
            omega
          dsimp only
          rw [if_neg hjne]
          have := h6 j (by omega) hjl
          rw [this]
          simp [List.getD_eq_getElem?_getD, List.getElem?_append, hjl]
        · have hjeq : j = l.length := by omega
          subst hjeq
          dsimp only
          rw [if_pos h3.symm]
          simp [List.getD_eq_getElem?_getD, List.getElem?_concat_length]
    · -- queue full: the push overwrites the oldest entry
      have hmin : min l.length (S-1) = S-1 := Nat.min_eq_right hge
      have hmin1 : min (l.length + 1) (S-1) = S-1 := Nat.min_eq_right (by omega)
      have hshift : l.length + 1 = (l.length - (S-1)) + S := by omega
      have heqmod : (l.length + 1) % S = (l.length - (S-1)) % S := by
        rw [hshift, Nat.add_mod_right]
      have heq : ((pushMany (freshRing S buf0) l).head + 1) %
          (pushMany (freshRing S buf0) l).queue_size =
          (pushMany (freshRing S buf0) l).tail := by
        rw [h2, h3, h4, hmin, Nat.mod_add_mod, heqmod]
      have hstep := push_event_full (pushMany (freshRing S buf0) l) e
        h1 (by rw [h2]; omega) heq
      rw [hpm, hstep]
      refine ⟨rfl, ?_, ?_, ?_, ?_, ?_⟩
      · dsimp only
        exact h2
      · dsimp only
        rw [h2, h3, Nat.mod_add_mod, hlen]
      · dsimp only
        rw [h2, h4, hlen, hmin, hmin1, Nat.mod_add_mod]
        have h7 : l.length - (S-1) + 1 = l.length + 1 - (S-1) := by omega
        rw [h7]
      · dsimp only
        rw [h5, hlen, hmin, hmin1]
        omega
      · intro j hj1 hj2
        rw [hlen] at hj1 hj2
        rw [hmin1] at hj1
        rcases Nat.lt_or_ge j l.length with hjl | hjl
        · have hjne : ¬ j % S = (pushMany (freshRing S buf0) l).head := by
            rw [h3]
            exact mod_ne_of_lt_gap S j l.length hjl (by omega)
          dsimp only
          rw [if_neg hjne]
          have := h6 j (by omega) hjl
          rw [this]
          simp [List.getD_eq_getElem?_getD, List.getElem?_append, hjl]
        · have hjeq : j = l.length := by omega
          subst hjeq
          dsimp only
          rw [if_pos h3.symm]
          simp [List.getD_eq_getElem?_getD, List.getElem?_concat_length]

theorem drain_spec (S : Nat) :
    ∀ (cnt : Nat) (fuel : Nat) (ctx : RingCtx) (t : Nat) (xs : List BtnEvent),
      ctx.hasQueue = true → ctx.queue_size = S →
      ctx.tail = t % S → ctx.head = (t + cnt) % S →
      cnt < S → cnt ≤ fuel →
      (∀ i, i < cnt → ctx.buf ((t + i) % S) = xs.getD i default) →
      xs.length = cnt →
      drain ctx fuel = xs := by
  intro cnt
  induction cnt with
  | zero =>
    intro fuel ctx t xs hq hs ht hh hcS hcf hbuf hxl
    have hxs : xs = [] := List.eq_nil_of_length_eq_zero hxl
    subst hxs
    have hpop : btn_pop_event ctx = (none, ctx) := by
      unfold btn_pop_event
      rw [if_neg (by simp [hq]; omega)]
      rw [if_pos (by rw [hh, ht]; simp)]
    cases fuel with
    | zero => rfl
    | succ f => simp [drain, hpop]
  | succ cnt ih =>
    intro fuel ctx t xs hq hs ht hh hcS hcf hbuf hxl
    have hne : ¬ ctx.head = ctx.tail := by
      rw [hh, ht]
      intro hcontra
      exact mod_ne_of_lt_gap S t (t + (cnt+1)) (by omega) (by omega) hcontra.symm
    have hpop : btn_pop_event ctx =
        (some (ctx.buf ctx.tail),
         { ctx with tail := (ctx.tail + 1) % ctx.queue_size }) := by
      unfold btn_pop_event
      rw [if_neg (by simp [hq]; omega)]
      rw [if_neg hne]
    cases fuel with
    | zero => omega
    | succ f =>
      unfold drain
      rw [hpop]
      dsimp only
      have hhead : xs.getD 0 default = ctx.buf ctx.tail := by
        rw [ht]
        have := hbuf 0 (by omega)
        rw [Nat.add_zero] at this
        rw [this]
      cases xs with
      | nil => exact absurd hxl.symm (Nat.succ_ne_zero cnt)
      | cons x0 xs =>
        have hx0 : x0 = ctx.buf ctx.tail := hhead
        have htail : ((⟨ctx.hasQueue, ctx.buf, ctx.queue_size, ctx.head,
            (ctx.tail + 1) % ctx.queue_size, ctx.dropped_events⟩ : RingCtx)).tail =
            (t + 1) % S := by
          dsimp only
          rw [ht, hs, Nat.mod_add_mod]
        have hrec := ih f
          ⟨ctx.hasQueue, ctx.buf, ctx.queue_size, ctx.head,
            (ctx.tail + 1) % ctx.queue_size, ctx.dropped_events⟩
          (t + 1) xs hq hs htail
          (by dsimp only; rw [hh]; congr 1; omega)
          (by omega) (by omega)
          (by
            intro i hi
            dsimp only
            have := hbuf (i + 1) (by omega)
            have harith : t + (i + 1) = t + 1 + i := by omega
            rw [harith] at this
            exact this)
          (by simpa using hxl)
        rw [hx0]
        have hctxeq : ({ ctx with tail := (ctx.tail + 1) % ctx.queue_size } :
            RingCtx) =
            ⟨ctx.hasQueue, ctx.buf, ctx.queue_size, ctx.head,
              (ctx.tail + 1) % ctx.queue_size, ctx.dropped_events⟩ := rfl
        rw [hctxeq, hrec]

/-- C1 (amended): a queue allocated with q_size = S holds at most S - 1
events (head == tail is reserved for "empty"), so pushing K ≥ S events with
no intervening pop leaves dropped_events = K - (S - 1), and the retained
events, popped in FIFO order, are the most recent S - 1 pushed. -/
theorem c1_overflow_amended (S : Nat) (buf0 : Nat → BtnEvent)
    (l : List BtnEvent) (hS : 1 ≤ S) (hK : S ≤ l.length) :
    (pushMany (freshRing S buf0) l).dropped_events = l.length - (S - 1) ∧
    drain (pushMany (freshRing S buf0) l) S = l.drop (l.length - (S - 1)) := by
  obtain ⟨h1, h2, h3, h4, h5, h6⟩ := pushMany_inv S hS buf0 l
  have hmin : min l.length (S-1) = S-1 := Nat.min_eq_right (by omega)
  rw [hmin] at h4 h5 h6
  refine ⟨h5, ?_⟩
  apply drain_spec S (S-1) S (pushMany (freshRing S buf0) l)
    (l.length - (S-1)) (l.drop (l.length - (S-1))) h1 h2 h4
  · rw [h3]
    congr 1
    omega
  · omega
  · omega
  · intro i hi
    have := h6 (l.length - (S-1) + i) (by omega) (by omega)
    rw [this]
    simp [List.getD_eq_getElem?_getD, List.getElem?_drop]
  · simp
    omega

/-- Three pushes into a two-slot queue for the C1 analysis. -/
def c1Events : List BtnEvent :=
  [BtnEvent.mk 1 BtnEventType.down 0 10,
   BtnEvent.mk 1 BtnEventType.up 0 20,
   BtnEvent.mk 1 BtnEventType.click 1 30]

/-- Witness for the amended C1: q_size = 2 retains 2 - 1 = 1 event; pushing
3 events drops 3 - 1 = 2 and the drained queue holds only the newest one. -/
theorem c1_overflow_witness :
    (pushMany (freshRing 2 (fun _ => default)) c1Events).dropped_events =
      c1Events.length - (2 - 1) ∧
    drain (pushMany (freshRing 2 (fun _ => default)) c1Events) 2 =
      c1Events.drop (c1Events.length - (2 - 1)) :=
  c1_overflow_amended 2 (fun _ => default) c1Events (by decide) (by decide)

/-- Counterexample to C1 as stated: with q_size = 2 ("capacity C = 2") and
K = 3 pushes, the claim predicts dropped = K - C = 1 and two retained
events; the code keeps one slot empty as the full/empty discriminator, so
it drops 2 and retains only the most recent event. -/
theorem c1_overflow_counterexample :
    (pushMany (freshRing 2 (fun _ => default)) c1Events).dropped_events = 2 ∧
    drain (pushMany (freshRing 2 (fun _ => default)) c1Events) 2 =
      [BtnEvent.mk 1 BtnEventType.click 1 30] ∧
    ¬ (pushMany (freshRing 2 (fun _ => default)) c1Events).dropped_events =
        c1Events.length - 2 := by
  refine ⟨rfl, rfl, by decide⟩


theorem ringNull_push (c : RingCtx) (e : BtnEvent)
    (h : c.hasQueue = false ∨ c.queue_size = 0) : push_event c e = c := by
  unfold push_event
  rw [if_pos h]

theorem ringNull_pushMany (c : RingCtx)
    (h : c.hasQueue = false ∨ c.queue_size = 0) :
    ∀ evs, pushMany c evs = c := by
  intro evs
  induction evs with
  | nil => rfl
  | cons e evs ih =>
    show List.foldl push_event c (e :: evs) = c
    rw [List.foldl_cons, ringNull_push c e h]
    exact ih

theorem ringNull_pop (c : RingCtx)
    (h : c.hasQueue = false ∨ c.queue_size = 0) :
    btn_pop_event c = (none, c) := by
  unfold btn_pop_event
  rw [if_pos h]

/-- The slot registry evolved on its own, with no queue interaction at
all: the reference trajectory every state machine must follow when the
queue is absent. -/
def runSlots (slots : List BtnSlot) : List (List Bool × Nat) → List BtnSlot
  | [] => slots
  | (reads, now) :: rest => runSlots (updateSlots slots reads now).1 rest

theorem runUpdates_null (us : List (List Bool × Nat)) :
    ∀ ctx : BtnContext,
      (ctx.ring.hasQueue = false ∨ ctx.ring.queue_size = 0) →
      (runUpdates ctx us).slots = runSlots ctx.slots us ∧
      (runUpdates ctx us).ring = ctx.ring := by
  induction us with
  | nil =>
    intro ctx h
    exact ⟨rfl, rfl⟩
  | cons u rest ih =>
    intro ctx h
    obtain ⟨reads, now⟩ := u
    have hupd : btn_update ctx reads now =
        ⟨(updateSlots ctx.slots reads now).1, ctx.ring⟩ := by
      unfold btn_update
      dsimp only
      rw [ringNull_pushMany ctx.ring h _]
    have hstep : runUpdates ctx ((reads, now) :: rest) =
        runUpdates
          (⟨(updateSlots ctx.slots reads now).1, ctx.ring⟩ : BtnContext)
          rest := by
      show runUpdates (btn_update ctx reads now) rest = _
      rw [hupd]
    rw [hstep]
    have hrec := ih
      (⟨(updateSlots ctx.slots reads now).1, ctx.ring⟩ : BtnContext) h
    exact ⟨hrec.1, hrec.2⟩

/-- C10: with a NULL queue pointer or a zero queue size, every `btn_update`
pass advances the slot state machines exactly as the queue-free reference
trajectory does and leaves the ring bookkeeping untouched, the dropped-event
counter stays 0, popping always reports empty, and any push is a complete
no-op (the event is discarded without touching `dropped_events`). -/
theorem c10_no_queue_thm (slots0 : List BtnSlot)
    (queue : Option (Nat → BtnEvent)) (qsize : Nat)
    (hnull : queue = none ∨ qsize = 0) :
    ∀ us : List (List Bool × Nat),
      (runUpdates (btn_init slots0 queue qsize) us).slots =
        runSlots slots0 us ∧
      (runUpdates (btn_init slots0 queue qsize) us).ring =
        (btn_init slots0 queue qsize).ring ∧
      btn_get_dropped_events (runUpdates (btn_init slots0 queue qsize) us) =
        0 ∧
      (btn_pop_event (runUpdates (btn_init slots0 queue qsize) us).ring).1 =
        none ∧
      ∀ e, push_event (runUpdates (btn_init slots0 queue qsize) us).ring e =
        (runUpdates (btn_init slots0 queue qsize) us).ring := by
  intro us
  have hring : (btn_init slots0 queue qsize).ring.hasQueue = false ∨
      (btn_init slots0 queue qsize).ring.queue_size = 0 := by
    rcases hnull with h | h
    · left
      rw [h]
      rfl
    · right
      exact h
  have haux := runUpdates_null us (btn_init slots0 queue qsize) hring
  have hringkeep : (runUpdates (btn_init slots0 queue qsize) us).ring.hasQueue
      = false ∨
      (runUpdates (btn_init slots0 queue qsize) us).ring.queue_size = 0 := by
    rw [haux.2]
    exact hring
  refine ⟨haux.1, haux.2, ?_, ?_, ?_⟩
  · unfold btn_get_dropped_events
    rw [haux.2]
    rfl
  · rw [ringNull_pop _ hringkeep]
  · intro e
    exact ringNull_push _ e hringkeep

/-- Witness for C10: one configured slot, NULL queue, q_size = 5, two
update passes; the slots follow the queue-free trajectory, nothing is
dropped, and pop reports empty. -/
theorem c10_no_queue_witness :
    ((none : Option (Nat → BtnEvent)) = none ∨ (5 : Nat) = 0) ∧
    (runUpdates (btn_init [BtnSlot.mk (some cfg0) (some BtnState.init)]
        none 5) [([true], 1000), ([true], 2000)]).slots =
      runSlots [BtnSlot.mk (some cfg0) (some BtnState.init)]
        [([true], 1000), ([true], 2000)] ∧
    btn_get_dropped_events
      (runUpdates (btn_init [BtnSlot.mk (some cfg0) (some BtnState.init)]
        none 5) [([true], 1000), ([true], 2000)]) = 0 ∧
    (btn_pop_event
      (runUpdates (btn_init [BtnSlot.mk (some cfg0) (some BtnState.init)]
        none 5) [([true], 1000), ([true], 2000)]).ring).1 = none :=
  ⟨Or.inl rfl,
   (c10_no_queue_thm [BtnSlot.mk (some cfg0) (some BtnState.init)] none 5
     (Or.inl rfl) [([true], 1000), ([true], 2000)]).1,
   (c10_no_queue_thm [BtnSlot.mk (some cfg0) (some BtnState.init)] none 5
     (Or.inl rfl) [([true], 1000), ([true], 2000)]).2.2.1,
   (c10_no_queue_thm [BtnSlot.mk (some cfg0) (some BtnState.init)] none 5
     (Or.inl rfl) [([true], 1000), ([true], 2000)]).2.2.2.1⟩

end ButtonLib
